import Mathlib

/-!
# Whiteboard: session lifecycle and real-time relay

A shallow embedding of `backend/models/session.model.js`,
`backend/routes/session.routes.js` and the socket handlers of
`backend/server.js`.

Conventions of the embedding.

* The session collection is a list of documents in insertion order; a document
  is identified by its position (documents are never removed by this code).
  `findOne` returns the first document that satisfies the filter.
* Every source of nondeterminism is an argument: the clock (`now`, milliseconds),
  the UUID draws for session ids and session codes, and the random draw of the
  guest name.
* A handler runs to completion before the next one starts; `createInterleaved`
  is `POST /create` with other requests served between its reads and its write.
* JavaScript strings are Lean strings; `toUpperCase` maps the ASCII letters only
  and `slice` counts characters, which agrees with JavaScript on ASCII text.
  Outside ASCII the case mapping is that of the Unicode tables of the engine;
  `joinByCodeWith` is `POST /join` with that mapping as an argument, and in a
  trace a join request with such a code is the `joinByCode` event that carries
  the code as the engine upper-cases it.
* Request fields are absent (`none`) or strings.
-/

namespace Whiteboard

/-! ## JavaScript helpers -/

/-- White space and line terminators that `String.prototype.trim` removes. -/
def isJsWhiteSpace (c : Char) : Bool :=
  let n := c.toNat
  n == 9 || n == 10 || n == 11 || n == 12 || n == 13 || n == 32 || n == 160 ||
  n == 5760 || (8192 ≤ n && n ≤ 8202) || n == 8232 || n == 8233 || n == 8239 ||
  n == 8287 || n == 12288 || n == 65279

/-- `s.trim()`. -/
def trim (s : String) : String :=
  ⟨((s.data.dropWhile isJsWhiteSpace).reverse.dropWhile isJsWhiteSpace).reverse⟩

/-- `s.toUpperCase()` on ASCII text: the letters `a` to `z` are mapped, every
other character is kept. -/
def toUpperCase (s : String) : String :=
  ⟨s.data.map Char.toUpper⟩

/-- `s.slice(0, n)`. -/
def slice0 (s : String) (n : Nat) : String :=
  ⟨s.data.take n⟩

/-- The value of `x || fallback` decides on truthiness: an absent field and the
empty string are both falsy. -/
def truthy : Option String → Option String
  | some s => if s = "" then none else some s
  | none => none

/-! ## Session documents (`session.model.js`) -/

/-- The board snapshot; the drawing elements are kept as uninterpreted strings. -/
structure BoardData where
  elements : List String
  backgroundColor : String
deriving DecidableEq, Repr

/-- The schema default of `boardData`, also written on reactivation. -/
def emptyBoard : BoardData :=
  { elements := [], backgroundColor := "#ffffff" }

/-- A document of the `Session` model. -/
structure Session where
  sessionId : String
  sessionCode : String
  sessionName : String
  createdBy : String
  createdAt : Nat
  participants : List String
  boardData : BoardData
  inviteLink : String
  isActive : Bool
  expiresAt : Nat
deriving DecidableEq, Repr

/-- Seven days in milliseconds: `7*24*60*60*1000`. -/
def sevenDays : Nat := 7 * 24 * 60 * 60 * 1000

/-- `sessionSchema.methods.addParticipant`. -/
def Session.addParticipant (s : Session) (userName : String) : Session :=
  if userName ∈ s.participants then s
  else { s with participants := s.participants ++ [userName] }

/-- `sessionSchema.methods.isExpired`: `this.expiresAt < new Date() || !this.isActive`. -/
def Session.isExpired (s : Session) (now : Nat) : Bool :=
  decide (s.expiresAt < now) || !s.isActive

/-! ## The collection and its unique indexes -/

/-- The `sessions` collection, in insertion order. -/
abbrev Store := List Session

/-- `Session.findOne(filter)`: the first matching document with its position. -/
def findOne (p : Session → Bool) : Store → Option (Nat × Session)
  | [] => none
  | s :: rest =>
    if p s then some (0, s)
    else match findOne p rest with
      | some (i, d) => some (i + 1, d)
      | none => none

/-- An entry of one of the three unique indexes of the schema. -/
inductive IndexKey where
  | sessionId (v : String)
  | sessionCode (v : String)
  | activeName (sessionName createdBy : String)
deriving DecidableEq, Repr

/-- The index entries of a document. The compound index on
`(sessionName, createdBy, isActive)` is partial: it only holds documents with
`isActive: true`. -/
def indexKeys (s : Session) : List IndexKey :=
  [IndexKey.sessionId s.sessionId, IndexKey.sessionCode s.sessionCode] ++
    (if s.isActive then [IndexKey.activeName s.sessionName s.createdBy] else [])

/-- What `save()` can throw. -/
inductive StoreError where
  | duplicateKey
  | validation
deriving DecidableEq, Repr

/-- The `required: true` string paths of the schema reject the empty string. -/
def requiredOk (s : Session) : Bool :=
  s.sessionId != "" && s.sessionCode != "" && s.sessionName != "" && s.createdBy != ""

/-- `save()` of a new document: validation, then the insert, which a unique
index rejects (error code 11000) when another document holds one of the keys. -/
def insertDoc (st : Store) (n : Session) : Except StoreError Store :=
  if !requiredOk n then Except.error StoreError.validation
  else if st.any (fun d => (indexKeys d).any (fun k => decide (k ∈ indexKeys n))) then
    Except.error StoreError.duplicateKey
  else Except.ok (st ++ [n])

/-- `save()` of the document at position `i` after it was changed from `old` to
`new`: index entries that the change adds are checked against the other
documents. -/
def saveDoc (st : Store) (i : Nat) (old new : Session) : Except StoreError Store :=
  let added := (indexKeys new).filter (fun k => !decide (k ∈ indexKeys old))
  if (st.eraseIdx i).any (fun d => (indexKeys d).any (fun k => decide (k ∈ added))) then
    Except.error StoreError.duplicateKey
  else Except.ok (st.set i new)

/-! ## HTTP routes (`session.routes.js`) -/

/-- `createGuestUser()`; `r` is the value of `Math.floor(Math.random() * 9000)`. -/
def createGuestUser (r : Nat) : String :=
  "Guest" ++ toString (1000 + r % 9000)

/-- `generateSessionCode()`; `uuid` is the value of `uuidv4()`. -/
def generateSessionCode (uuid : String) : String :=
  toUpperCase (slice0 uuid 8)

/-- The JSON bodies the session routes answer with. -/
inductive Body where
  | error (msg : String)
  | conflict (msg sessionId sessionCode : String)
  | created (sessionId sessionCode inviteLink userRole createdBy sessionName : String)
      (createdAt : Nat) (reactivated : Bool)
  | joined (sessionId sessionCode inviteLink userRole createdBy sessionName : String)
      (boardData : BoardData) (participants : List String) (userName : String)
  | session (s : Session)
  | sessions (l : List Session)
  | board (boardData : BoardData)
  | message (msg : String)
deriving DecidableEq, Repr

/-- An HTTP answer: status code and body. -/
structure Response where
  status : Nat
  body : Body
deriving DecidableEq, Repr

/-- The random draws and the environment one `POST /create` consumes. -/
structure CreateEnv where
  now : Nat
  guestDraw : Nat
  codeDraws : List String
  idDraw : String
  frontendUrl : Option String

/-- The code-allocation loop of `POST /create`: draw until no document has the
code. `none` when the given draws all collide (the loop needs more draws). -/
def allocCode (st : Store) : List String → Option String
  | [] => none
  | u :: us =>
    let c := generateSessionCode u
    match findOne (fun d => d.sessionCode == c) st with
    | some _ => allocCode st us
    | none => some c

/-- `router.post('/create')`. `none` when the allocation loop has not returned
with the given draws. -/
def create (st : Store) (sessionName userId : Option String) (env : CreateEnv) :
    Option (Response × Store) :=
  match truthy sessionName with
  | none => some (⟨400, Body.error "Session name is required"⟩, st)
  | some name =>
    if (trim name).length = 0 then
      some (⟨400, Body.error "Session name is required"⟩, st)
    else
      let createdBy := (truthy userId).getD (createGuestUser env.guestDraw)
      let userRole := if (truthy userId).isSome then "owner" else "guest"
      match findOne (fun d => d.sessionName == trim name && d.createdBy == createdBy) st with
      | some (i, existing) =>
        if existing.isActive then
          some (⟨409, Body.conflict "You already have an active session with this name"
            existing.sessionId existing.sessionCode⟩, st)
        else
          let revived : Session :=
            { existing with
              isActive := true
              expiresAt := env.now + sevenDays
              participants := [createdBy]
              boardData := emptyBoard }
          match saveDoc st i existing revived with
          | Except.ok st' =>
            some (⟨200, Body.created revived.sessionId revived.sessionCode revived.inviteLink
              userRole revived.createdBy revived.sessionName revived.createdAt true⟩, st')
          | Except.error StoreError.duplicateKey =>
            some (⟨409, Body.error "A session with this name already exists"⟩, st)
          | Except.error StoreError.validation =>
            some (⟨500, Body.error "Failed to create session"⟩, st)
      | none =>
        match allocCode st env.codeDraws with
        | none => none
        | some sessionCode =>
          let baseUrl := (truthy env.frontendUrl).getD "http://localhost:3000"
          let inviteLink := baseUrl ++ "/join/" ++ sessionCode
          let session : Session :=
            { sessionId := env.idDraw
              sessionCode := sessionCode
              sessionName := trim name
              createdBy := createdBy
              createdAt := env.now
              participants := [createdBy]
              boardData := emptyBoard
              inviteLink := inviteLink
              isActive := true
              expiresAt := env.now + sevenDays }
          match insertDoc st session with
          | Except.ok st' =>
            some (⟨201, Body.created session.sessionId session.sessionCode session.inviteLink
              userRole session.createdBy session.sessionName session.createdAt false⟩, st')
          | Except.error StoreError.duplicateKey =>
            some (⟨409, Body.error "A session with this name already exists"⟩, st)
          | Except.error StoreError.validation =>
            some (⟨500, Body.error "Failed to create session"⟩, st)

/-- `router.post('/create')` when other requests are served between its reads
and its write: the lookups (`findOne` by name and owner, the code-allocation
loop) see the store `stRead`, and `save()` runs against the store `stWrite`.
With `stRead = stWrite` this is `create`. -/
def createInterleaved (stRead stWrite : Store) (sessionName userId : Option String)
    (env : CreateEnv) : Option (Response × Store) :=
  match truthy sessionName with
  | none => some (⟨400, Body.error "Session name is required"⟩, stWrite)
  | some name =>
    if (trim name).length = 0 then
      some (⟨400, Body.error "Session name is required"⟩, stWrite)
    else
      let createdBy := (truthy userId).getD (createGuestUser env.guestDraw)
      let userRole := if (truthy userId).isSome then "owner" else "guest"
      match findOne (fun d => d.sessionName == trim name && d.createdBy == createdBy) stRead with
      | some (i, existing) =>
        if existing.isActive then
          some (⟨409, Body.conflict "You already have an active session with this name"
            existing.sessionId existing.sessionCode⟩, stWrite)
        else
          let revived : Session :=
            { existing with
              isActive := true
              expiresAt := env.now + sevenDays
              participants := [createdBy]
              boardData := emptyBoard }
          match saveDoc stWrite i existing revived with
          | Except.ok st' =>
            some (⟨200, Body.created revived.sessionId revived.sessionCode revived.inviteLink
              userRole revived.createdBy revived.sessionName revived.createdAt true⟩, st')
          | Except.error StoreError.duplicateKey =>
            some (⟨409, Body.error "A session with this name already exists"⟩, stWrite)
          | Except.error StoreError.validation =>
            some (⟨500, Body.error "Failed to create session"⟩, stWrite)
      | none =>
        match allocCode stRead env.codeDraws with
        | none => none
        | some sessionCode =>
          let baseUrl := (truthy env.frontendUrl).getD "http://localhost:3000"
          let inviteLink := baseUrl ++ "/join/" ++ sessionCode
          let session : Session :=
            { sessionId := env.idDraw
              sessionCode := sessionCode
              sessionName := trim name
              createdBy := createdBy
              createdAt := env.now
              participants := [createdBy]
              boardData := emptyBoard
              inviteLink := inviteLink
              isActive := true
              expiresAt := env.now + sevenDays }
          match insertDoc stWrite session with
          | Except.ok st' =>
            some (⟨201, Body.created session.sessionId session.sessionCode session.inviteLink
              userRole session.createdBy session.sessionName session.createdAt false⟩, st')
          | Except.error StoreError.duplicateKey =>
            some (⟨409, Body.error "A session with this name already exists"⟩, stWrite)
          | Except.error StoreError.validation =>
            some (⟨500, Body.error "Failed to create session"⟩, stWrite)

/-- The answer of the `catch` block of `POST /create` to a store error. -/
def createFailure : StoreError → Response
  | StoreError.duplicateKey => ⟨409, Body.error "A session with this name already exists"⟩
  | StoreError.validation => ⟨500, Body.error "Failed to create session"⟩

/-- `router.post('/join')`; `guestDraw` feeds `createGuestUser()`. -/
def joinByCode (st : Store) (sessionCode userId : Option String) (now guestDraw : Nat) :
    Response × Store :=
  match truthy sessionCode with
  | none => (⟨400, Body.error "Session code is required"⟩, st)
  | some code =>
    if (trim code).length = 0 then
      (⟨400, Body.error "Session code is required"⟩, st)
    else
      match findOne (fun d => d.sessionCode == toUpperCase (trim code) && d.isActive) st with
      | none => (⟨404, Body.error "Invalid or expired session code"⟩, st)
      | some (i, session) =>
        if session.isExpired now then
          (⟨404, Body.error "This session has expired"⟩, st)
        else
          let userName := (truthy userId).getD (createGuestUser guestDraw)
          let userRole :=
            if session.createdBy = userName then "owner"
            else if (truthy userId).isSome then "participant" else "guest"
          let session' := session.addParticipant userName
          match saveDoc st i session session' with
          | Except.ok st' =>
            (⟨200, Body.joined session'.sessionId session'.sessionCode session'.inviteLink
              userRole session'.createdBy session'.sessionName session'.boardData
              session'.participants userName⟩, st')
          | Except.error _ => (⟨500, Body.error "Failed to join session"⟩, st)

/-- `router.post('/join')` for request strings of any alphabet: `upper` stands
for `String.prototype.toUpperCase`, whose value outside ASCII comes from the
Unicode tables of the engine (U+FB00 becomes `FF`, for instance). With
`upper = toUpperCase` this is `joinByCode`. -/
def joinByCodeWith (upper : String → String) (st : Store) (sessionCode userId : Option String) (now guestDraw : Nat) :
    Response × Store :=
  match truthy sessionCode with
  | none => (⟨400, Body.error "Session code is required"⟩, st)
  | some code =>
    if (trim code).length = 0 then
      (⟨400, Body.error "Session code is required"⟩, st)
    else
      match findOne (fun d => d.sessionCode == upper (trim code) && d.isActive) st with
      | none => (⟨404, Body.error "Invalid or expired session code"⟩, st)
      | some (i, session) =>
        if session.isExpired now then
          (⟨404, Body.error "This session has expired"⟩, st)
        else
          let userName := (truthy userId).getD (createGuestUser guestDraw)
          let userRole :=
            if session.createdBy = userName then "owner"
            else if (truthy userId).isSome then "participant" else "guest"
          let session' := session.addParticipant userName
          match saveDoc st i session session' with
          | Except.ok st' =>
            (⟨200, Body.joined session'.sessionId session'.sessionCode session'.inviteLink
              userRole session'.createdBy session'.sessionName session'.boardData
              session'.participants userName⟩, st')
          | Except.error _ => (⟨500, Body.error "Failed to join session"⟩, st)

/-- `router.get('/:sessionId')`. -/
def getSession (st : Store) (sessionId : String) (now : Nat) : Response :=
  match findOne (fun d => d.sessionId == sessionId && d.isActive) st with
  | none => ⟨404, Body.error "Session not found"⟩
  | some (_, session) =>
    if session.isExpired now then ⟨404, Body.error "This session has expired"⟩
    else ⟨200, Body.session session⟩

/-- `router.get('/user/:userId')`: the filter
`createdBy: userId, isActive: true, expiresAt: $gt now`, sorted by `createdAt`
descending. -/
def listByOwner (st : Store) (userId : String) (now : Nat) : Response :=
  ⟨200, Body.sessions
    ((st.filter (fun d => d.createdBy == userId && d.isActive && decide (d.expiresAt > now))).insertionSort
      (fun a b => a.createdAt ≥ b.createdAt))⟩

/-- `router.put('/:sessionId/board')`. -/
def updateBoard (st : Store) (sessionId : String) (boardData : BoardData) : Response × Store :=
  match findOne (fun d => d.sessionId == sessionId && d.isActive) st with
  | none => (⟨404, Body.error "Session not found"⟩, st)
  | some (i, session) =>
    let session' := { session with boardData := boardData }
    match saveDoc st i session session' with
    | Except.ok st' => (⟨200, Body.board session'.boardData⟩, st')
    | Except.error _ => (⟨500, Body.error "Failed to update board data"⟩, st)

/-- `router.delete('/:sessionId')`; `userId` is read from the request body. -/
def deleteSession (st : Store) (sessionId : String) (userId : Option String) : Response × Store :=
  match findOne (fun d => d.sessionId == sessionId) st with
  | none => (⟨404, Body.error "Session not found"⟩, st)
  | some (i, session) =>
    if some session.createdBy ≠ userId then
      (⟨403, Body.error "Only the session owner can delete this session"⟩, st)
    else
      match saveDoc st i session { session with isActive := false } with
      | Except.ok st' => (⟨200, Body.message "Session deleted successfully"⟩, st')
      | Except.error _ => (⟨500, Body.error "Failed to delete session"⟩, st)

/-- `router.put('/:sessionId/deactivate')`. -/
def deactivate (st : Store) (sessionId : String) : Response × Store :=
  match findOne (fun d => d.sessionId == sessionId) st with
  | none => (⟨404, Body.error "Session not found"⟩, st)
  | some (i, session) =>
    match saveDoc st i session { session with isActive := false } with
    | Except.ok st' => (⟨200, Body.message "Session deactivated successfully"⟩, st')
    | Except.error _ => (⟨500, Body.error "Failed to deactivate session"⟩, st)

/-! ## Socket server (`server.js`) -/

/-- A JavaScript `Map` keeps its keys in insertion order. -/
abbrev JsMap (β : Type) := List (String × β)

/-- `m.has(k)`. -/
def mapHas {β : Type} (k : String) (m : JsMap β) : Bool :=
  m.any (fun e => e.1 == k)

/-- `m.get(k)`. -/
def mapGet {β : Type} (k : String) : JsMap β → Option β
  | [] => none
  | (k1, v) :: rest => if k1 = k then some v else mapGet k rest

/-- `m.set(k, v)`: an existing key keeps its position, a new key goes last. -/
def mapSet {β : Type} (k : String) (v : β) : JsMap β → JsMap β
  | [] => [(k, v)]
  | (k1, v1) :: rest => if k1 = k then (k, v) :: rest else (k1, v1) :: mapSet k v rest

/-- `m.delete(k)`. -/
def mapDelete {β : Type} (k : String) (m : JsMap β) : JsMap β :=
  m.filter (fun e => e.1 != k)

/-- The value of `socket.userData`. -/
structure UserData where
  sessionId : String
  userName : String
deriving DecidableEq, Repr

/-- The value kept per socket id in `activeSessions.get(sessionId)`. -/
structure Participant where
  userName : String
  joinedAt : Nat
deriving DecidableEq, Repr

/-- An element of the `participants` array sent in `join_success`,
`user_joined` and `user_left`. -/
structure RosterEntry where
  socketId : String
  userName : String
  joinedAt : Nat
deriving DecidableEq, Repr

/-- A connected socket: its id, `socket.userData` and the rooms it entered with
`socket.join`. -/
structure Socket where
  id : String
  userData : Option UserData
  rooms : List String
deriving DecidableEq, Repr

/-- The process state: the collection, the `activeSessions` map and the
connected sockets. -/
structure Server where
  store : Store
  activeSessions : JsMap (JsMap Participant)
  sockets : List Socket
deriving DecidableEq, Repr

/-- The state at start-up. -/
def Server.init : Server :=
  { store := [], activeSessions := [], sockets := [] }

/-- Events the server sends to a socket. -/
inductive OutEvent where
  | join_error (error : String)
  | join_success (sessionId userName sessionName createdBy : String) (boardData : BoardData)
      (participants : List RosterEntry)
  | user_joined (userName socketId : String) (count : Nat) (participants : List RosterEntry)
  | user_left (userName socketId : String) (count : Nat) (participants : List RosterEntry)
  | draw_element (element : Option String) (pageId : String)
  | update_element (element : Option String) (pageId : String)
  | delete_element (elementId : Option String) (pageId : String)
  | clear_board (pageId : String)
  | chat_message (userName message : Option String) (timestamp : Nat)
  | save_success
  | save_error (error : String)
deriving DecidableEq, Repr

/-- One delivery: the receiving socket and the event. -/
structure Emit where
  recipient : String
  event : OutEvent
deriving DecidableEq, Repr

/-- Membership of a socket in a room: every socket is in the room named by its
own id, and in the rooms it joined. -/
def inRoom (room : String) (s : Socket) : Bool :=
  s.id == room || decide (room ∈ s.rooms)

/-- `socket.to(room).emit(ev)`: every socket of the room except the sender. A
room that is `undefined` has no members. -/
def socketTo (sockets : List Socket) (sender : String) (room : Option String) (ev : OutEvent) :
    List Emit :=
  match room with
  | none => []
  | some r => (sockets.filter (fun s => s.id != sender && inRoom r s)).map (fun s => ⟨s.id, ev⟩)

/-- `io.to(room).emit(ev)`: every socket of the room. -/
def serverTo (sockets : List Socket) (room : Option String) (ev : OutEvent) : List Emit :=
  match room with
  | none => []
  | some r => (sockets.filter (fun s => inRoom r s)).map (fun s => ⟨s.id, ev⟩)

/-- `Array.from(m.entries()).map(([id, data]) => ...)`. -/
def roster (m : JsMap Participant) : List RosterEntry :=
  m.map (fun e => ⟨e.1, e.2.userName, e.2.joinedAt⟩)

/-- The socket with id `c`, when connected. -/
def findSocket (sockets : List Socket) (c : String) : Option Socket :=
  sockets.find? (fun s => s.id == c)

/-- A new connection. -/
def connect (σ : Server) (c : String) : Server :=
  if (findSocket σ.sockets c).isSome then σ
  else { σ with sockets := σ.sockets ++ [⟨c, none, []⟩] }

/-- `socket.join(room)`. -/
def joinRoom (room : String) (rooms : List String) : List String :=
  if room ∈ rooms then rooms else rooms ++ [room]

/-- `socket.on('join_session')` for the socket `c`. -/
def join_session (σ : Server) (c : String) (sessionId userName : Option String) (now : Nat) :
    Server × List Emit :=
  match findSocket σ.sockets c with
  | none => (σ, [])
  | some _ =>
    match truthy sessionId with
    | none => (σ, [⟨c, OutEvent.join_error "Session ID is required"⟩])
    | some sid =>
      match truthy userName with
      | none => (σ, [⟨c, OutEvent.join_error "User name is required"⟩])
      | some name =>
        match findOne (fun d => d.sessionId == sid && d.isActive) σ.store with
        | none => (σ, [⟨c, OutEvent.join_error "Invalid or expired session code"⟩])
        | some (i, session) =>
          if session.isExpired now then
            (σ, [⟨c, OutEvent.join_error "This session has expired"⟩])
          else
            let session' := session.addParticipant name
            match saveDoc σ.store i session session' with
            | Except.error _ => (σ, [⟨c, OutEvent.join_error "Failed to join session"⟩])
            | Except.ok st' =>
              let sockets' := σ.sockets.map (fun s =>
                if s.id == c then
                  { s with userData := some ⟨sid, name⟩, rooms := joinRoom sid s.rooms }
                else s)
              let reg1 :=
                if mapHas sid σ.activeSessions then σ.activeSessions
                else mapSet sid [] σ.activeSessions
              let reg2 := mapSet sid (mapSet c ⟨name, now⟩ ((mapGet sid reg1).getD [])) reg1
              let members := (mapGet sid reg2).getD []
              let participants := roster members
              ({ store := st', activeSessions := reg2, sockets := sockets' },
                ⟨c, OutEvent.join_success sid name session'.sessionName session'.createdBy
                  session'.boardData participants⟩ ::
                socketTo sockets' c (some sid)
                  (OutEvent.user_joined name c members.length participants))

/-- The guard `socket.userData?.sessionId === sessionId` of the relay handlers. -/
def registeredTo (s : Socket) (sessionId : Option String) : Bool :=
  s.userData.map (fun u => u.sessionId) == sessionId

/-- `pageId || 'default'`. -/
def pageOrDefault (pageId : Option String) : String :=
  (truthy pageId).getD "default"

/-- The four relay handlers that use `socket.to(sessionId).emit`. -/
def relayOthers (σ : Server) (c : String) (sessionId : Option String) (ev : OutEvent) :
    Server × List Emit :=
  match findSocket σ.sockets c with
  | none => (σ, [])
  | some s =>
    if registeredTo s sessionId then (σ, socketTo σ.sockets c sessionId ev) else (σ, [])

/-- `socket.on('draw_element')`. -/
def draw_element (σ : Server) (c : String) (sessionId element pageId : Option String) :
    Server × List Emit :=
  relayOthers σ c sessionId (OutEvent.draw_element element (pageOrDefault pageId))

/-- `socket.on('update_element')`. -/
def update_element (σ : Server) (c : String) (sessionId element pageId : Option String) :
    Server × List Emit :=
  relayOthers σ c sessionId (OutEvent.update_element element (pageOrDefault pageId))

/-- `socket.on('delete_element')`. -/
def delete_element (σ : Server) (c : String) (sessionId elementId pageId : Option String) :
    Server × List Emit :=
  relayOthers σ c sessionId (OutEvent.delete_element elementId (pageOrDefault pageId))

/-- `socket.on('clear_board')`. -/
def clear_board (σ : Server) (c : String) (sessionId pageId : Option String) :
    Server × List Emit :=
  relayOthers σ c sessionId (OutEvent.clear_board (pageOrDefault pageId))

/-- `socket.on('chat_message')`. -/
def chat_message (σ : Server) (c : String) (sessionId message userName : Option String)
    (now : Nat) : Server × List Emit :=
  match findSocket σ.sockets c with
  | none => (σ, [])
  | some s =>
    if registeredTo s sessionId then
      (σ, serverTo σ.sockets sessionId (OutEvent.chat_message userName message now))
    else (σ, [])

/-- The filter `{ sessionId }` of `save_board`. A value that is `undefined`
reaches the database as `null`, which matches only a document without the
field; `sessionId` is a required path, so no stored document matches. -/
def sessionIdFilter (sessionId : Option String) (d : Session) : Bool :=
  match sessionId with
  | none => false
  | some sid => d.sessionId == sid

/-- `socket.on('save_board')`. -/
def save_board (σ : Server) (c : String) (sessionId : Option String) (boardData : BoardData) :
    Server × List Emit :=
  match findSocket σ.sockets c with
  | none => (σ, [])
  | some s =>
    if registeredTo s sessionId then
      match findOne (sessionIdFilter sessionId) σ.store with
      | none => (σ, [])
      | some (i, session) =>
        match saveDoc σ.store i session { session with boardData := boardData } with
        | Except.ok st' => ({ σ with store := st' }, [⟨c, OutEvent.save_success⟩])
        | Except.error _ => (σ, [⟨c, OutEvent.save_error "Failed to save board data"⟩])
    else (σ, [])

/-- `socket.on('disconnect')`: the socket has left its rooms when the handler
runs. -/
def disconnect (σ : Server) (c : String) : Server × List Emit :=
  match findSocket σ.sockets c with
  | none => (σ, [])
  | some s =>
    let sockets' := σ.sockets.filter (fun x => x.id != c)
    match s.userData with
    | none => ({ σ with sockets := sockets' }, [])
    | some u =>
      let sessionId := u.sessionId
      let userName := (truthy (some u.userName)).getD "Anonymous"
      if sessionId != "" && mapHas sessionId σ.activeSessions then
        let participants := (mapGet sessionId σ.activeSessions).getD []
        if mapHas c participants then
          let remaining := mapDelete c participants
          let emits := socketTo sockets' c (some sessionId)
            (OutEvent.user_left userName c remaining.length (roster remaining))
          if remaining.length = 0 then
            let reg := mapDelete sessionId σ.activeSessions
            match findOne (fun d => d.sessionId == sessionId) σ.store with
            | none => ({ σ with activeSessions := reg, sockets := sockets' }, emits)
            | some (i, session) =>
              if session.isActive then
                match saveDoc σ.store i session { session with isActive := false } with
                | Except.ok st' =>
                  ({ store := st', activeSessions := reg, sockets := sockets' }, emits)
                | Except.error _ =>
                  ({ σ with activeSessions := reg, sockets := sockets' }, emits)
              else ({ σ with activeSessions := reg, sockets := sockets' }, emits)
          else
            ({ σ with activeSessions := mapSet sessionId remaining σ.activeSessions,
                      sockets := sockets' }, emits)
        else ({ σ with sockets := sockets' }, [])
      else ({ σ with sockets := sockets' }, [])

/-! ## Traces -/

/-- What can happen to the server: a request of the HTTP routes or a socket
event. -/
inductive Event where
  | create (sessionName userId : Option String) (env : CreateEnv)
  | joinByCode (sessionCode userId : Option String) (now guestDraw : Nat)
  | updateBoard (sessionId : String) (boardData : BoardData)
  | deleteSession (sessionId : String) (userId : Option String)
  | deactivate (sessionId : String)
  | connect (c : String)
  | join_session (c : String) (sessionId userName : Option String) (now : Nat)
  | draw_element (c : String) (sessionId element pageId : Option String)
  | update_element (c : String) (sessionId element pageId : Option String)
  | delete_element (c : String) (sessionId elementId pageId : Option String)
  | clear_board (c : String) (sessionId pageId : Option String)
  | chat_message (c : String) (sessionId message userName : Option String) (now : Nat)
  | save_board (c : String) (sessionId : Option String) (boardData : BoardData)
  | disconnect (c : String)

/-- The state after an event. A `create` whose allocation loop has not returned
has written nothing. -/
def Server.step (σ : Server) : Event → Server
  | Event.create n u env =>
    match create σ.store n u env with
    | some (_, st) => { σ with store := st }
    | none => σ
  | Event.joinByCode code u now g => { σ with store := (joinByCode σ.store code u now g).2 }
  | Event.updateBoard sid b => { σ with store := (updateBoard σ.store sid b).2 }
  | Event.deleteSession sid u => { σ with store := (deleteSession σ.store sid u).2 }
  | Event.deactivate sid => { σ with store := (deactivate σ.store sid).2 }
  | Event.connect c => connect σ c
  | Event.join_session c sid name now => (join_session σ c sid name now).1
  | Event.draw_element c sid e p => (draw_element σ c sid e p).1
  | Event.update_element c sid e p => (update_element σ c sid e p).1
  | Event.delete_element c sid e p => (delete_element σ c sid e p).1
  | Event.clear_board c sid p => (clear_board σ c sid p).1
  | Event.chat_message c sid m u now => (chat_message σ c sid m u now).1
  | Event.save_board c sid b => (save_board σ c sid b).1
  | Event.disconnect c => (disconnect σ c).1

/-- The state after a sequence of events. -/
def Server.run (σ : Server) (es : List Event) : Server :=
  es.foldl Server.step σ

/-! ## Invariants of the collection -/

/-- The three keys the unique indexes range over, for every document
(active or not): session ids, session codes and `(sessionName, createdBy)`
pairs are pairwise different, and no required string is empty. -/
def StoreInv (st : Store) : Prop :=
  (st.map (fun d => d.sessionId)).Nodup ∧
  (st.map (fun d => d.sessionCode)).Nodup ∧
  (st.map (fun d => (d.sessionName, d.createdBy))).Nodup ∧
  ∀ d ∈ st, requiredOk d = true

/-- Every key of `activeSessions` is the id of a stored session, and socket
ids are pairwise different. -/
def ServerInv (σ : Server) : Prop :=
  StoreInv σ.store ∧
  (∀ e ∈ σ.activeSessions, ∃ d ∈ σ.store, d.sessionId = e.1) ∧
  (σ.sockets.map (fun s => s.id)).Nodup

/-- The connections registered for a session in `activeSessions`. -/
def members (σ : Server) (sessionId : String) : List String :=
  ((mapGet sessionId σ.activeSessions).getD []).map (fun e => e.1)

/-- Two documents with the same identifying fields. -/
def SameIdent (a b : Session) : Prop :=
  a.sessionId = b.sessionId ∧ a.sessionCode = b.sessionCode ∧
  a.sessionName = b.sessionName ∧ a.createdBy = b.createdBy

/-- The collection after a handler that changes at most one document in place,
keeping its identifying fields. -/
inductive StoreUpd (st : Store) : Store → Prop where
  | same : StoreUpd st st
  | set (i : Nat) (old new : Session) (h : st[i]? = some old) (hid : SameIdent new old) :
      StoreUpd st (st.set i new)

/-- The collection after a handler: one document changed in place, or one
document with fresh keys appended. -/
inductive StoreStep (st : Store) : Store → Prop where
  | upd {st1 : Store} (h : StoreUpd st st1) : StoreStep st st1
  | insert (n : Session) (hr : requiredOk n = true)
      (hfresh : ∀ d ∈ st, d.sessionId ≠ n.sessionId ∧ d.sessionCode ≠ n.sessionCode ∧
        ¬ (d.sessionName = n.sessionName ∧ d.createdBy = n.createdBy)) :
      StoreStep st (st ++ [n])

/-- Every connected socket that has `userData` is in the room of its session,
the session id is not empty, and a document with that id is stored. -/
def SocketInv (σ : Server) : Prop :=
  ∀ s ∈ σ.sockets, ∀ u, s.userData = some u →
    u.sessionId ∈ s.rooms ∧ u.sessionId ≠ "" ∧ ∃ d ∈ σ.store, d.sessionId = u.sessionId

/-- No key of `activeSessions` has an empty connection map. -/
def RegistryInv (σ : Server) : Prop :=
  ∀ e ∈ σ.activeSessions, e.2 ≠ []

/-! ## Predicates used in the statements -/

/-- The hexadecimal digits, in either letter case. -/
def hexDigits : List Char :=
  ['0', '1', '2', '3', '4', '5', '6', '7', '8', '9',
   'a', 'b', 'c', 'd', 'e', 'f', 'A', 'B', 'C', 'D', 'E', 'F']

/-- A group of a UUID: `n` hexadecimal digits. -/
def hexGroup (n : Nat) (l : List Char) : Bool :=
  l.length == n && l.all (fun c => hexDigits.contains c)

/-- The canonical form of a UUID: 32 hexadecimal digits in groups of 8, 4, 4, 4
and 12, separated by hyphens. -/
def isCanonicalUuid (u : String) : Bool :=
  hexGroup 8 (u.data.take 8) && u.data[8]? == some '-' &&
  hexGroup 4 ((u.data.drop 9).take 4) && u.data[13]? == some '-' &&
  hexGroup 4 ((u.data.drop 14).take 4) && u.data[18]? == some '-' &&
  hexGroup 4 ((u.data.drop 19).take 4) && u.data[23]? == some '-' &&
  hexGroup 12 (u.data.drop 24)

/-- The condition under which a real-time join is to succeed: `sessionId` and
`userName` are both given, and a document with that sessionId exists, is
active and is not past its `expiresAt`. -/
def joinable (st : Store) (sessionId userName : Option String) (now : Nat) : Prop :=
  ∃ sid name d, truthy sessionId = some sid ∧ truthy userName = some name ∧ d ∈ st ∧
    d.sessionId = sid ∧ d.isActive = true ∧ ¬ (now > d.expiresAt)

/-- A `join_success` event. -/
def isJoinSuccess : OutEvent → Bool
  | OutEvent.join_success _ _ _ _ _ _ => true
  | _ => false

/-! ## Example data -/

/-- Draws for a first `POST /create`. -/
def retroEnv : CreateEnv :=
  { now := 1000, guestDraw := 0, codeDraws := ["3f2a9c1e-7b4d-4e2a-9c1e-5d6f7a8b9c0d"],
    idDraw := "s-1", frontendUrl := none }

/-- Draws for a later `POST /create`. -/
def laterEnv : CreateEnv :=
  { now := 5000, guestDraw := 0, codeDraws := ["0a1b2c3d-7b4d-4e2a-9c1e-5d6f7a8b9c0d"],
    idDraw := "s-2", frontendUrl := none }

/-- The document `POST /create` stores for the name Retro and the owner alice
with the draws `retroEnv`. -/
def retroSession : Session :=
  { sessionId := "s-1", sessionCode := "3F2A9C1E", sessionName := "Retro", createdBy := "alice",
    createdAt := 1000, participants := ["alice"], boardData := emptyBoard,
    inviteLink := "http://localhost:3000/join/3F2A9C1E", isActive := true,
    expiresAt := 604801000 }

/-- Alice creates the session Retro. -/
def retroCreated : List Event :=
  [Event.create (some "Retro") (some "alice") retroEnv]

/-- Alice creates Retro, bob joins by code, the session is deactivated. -/
def retroClosed : List Event :=
  [Event.create (some "Retro") (some "alice") retroEnv,
   Event.joinByCode (some "3f2a9c1e") (some "bob") 2000 0,
   Event.deactivate "s-1"]

/-- The document of Retro after bob joined and the session was deactivated. -/
def retroClosedSession : Session :=
  { retroSession with participants := ["alice", "bob"], isActive := false }

/-- Draws for a second session, Standup. -/
def standupEnv : CreateEnv :=
  { now := 1500, guestDraw := 0, codeDraws := ["0a1b2c3d-7b4d-4e2a-9c1e-5d6f7a8b9c0d"],
    idDraw := "s-2", frontendUrl := none }

/-- Bob opens connection A and joins Retro in real time. -/
def retroLive : List Event :=
  [Event.create (some "Retro") (some "alice") retroEnv,
   Event.connect "A",
   Event.join_session "A" (some "s-1") (some "bob") 2000]

/-- Two sessions; connections A and B are in Retro, connection C is in
Standup. -/
def twoRooms : List Event :=
  [Event.create (some "Retro") (some "alice") retroEnv,
   Event.create (some "Standup") (some "alice") standupEnv,
   Event.connect "A", Event.connect "B", Event.connect "C",
   Event.join_session "A" (some "s-1") (some "ann") 2000,
   Event.join_session "B" (some "s-1") (some "bob") 2001,
   Event.join_session "C" (some "s-2") (some "cy") 2002]

/-- A connection that never joined a session. -/
def strangerConnected : List Event :=
  [Event.create (some "Retro") (some "alice") retroEnv, Event.connect "Z"]

/-- Connection A joins Retro, connection B joins Retro, then A sends
`join_session` for Retro again; the clock increases from event to event. -/
def rejoined : List Event :=
  [Event.create (some "Retro") (some "alice") retroEnv,
   Event.connect "A", Event.connect "B",
   Event.join_session "A" (some "s-1") (some "ann") 2000,
   Event.join_session "B" (some "s-1") (some "bob") 2001,
   Event.join_session "A" (some "s-1") (some "ann") 2002]

/-- Draws of which the first two give the code 3F2A9C1E. -/
def collidingEnv : CreateEnv :=
  { now := 5000, guestDraw := 0,
    codeDraws := ["3f2a9c1e-0000-4000-8000-000000000000",
                  "3F2A9C1E-1111-4111-8111-111111111111",
                  "0a1b2c3d-7b4d-4e2a-9c1e-5d6f7a8b9c0d"],
    idDraw := "s-2", frontendUrl := some "https://board.example" }

/-- Alice created Retro and connection A is open but has not joined. -/
def retroWaiting : List Event :=
  [Event.create (some "Retro") (some "alice") retroEnv, Event.connect "A"]

/-- The document a `POST /create` for Retro and alice inserts with the draws
`laterEnv`. -/
def retroSecond : Session :=
  { sessionId := "s-2", sessionCode := "0A1B2C3D", sessionName := "Retro", createdBy := "alice",
    createdAt := 5000, participants := ["alice"], boardData := emptyBoard,
    inviteLink := "http://localhost:3000/join/0A1B2C3D", isActive := true,
    expiresAt := 604805000 }

/-- Draws for a third `POST /create`. -/
def thirdEnv : CreateEnv :=
  { now := 9000, guestDraw := 0, codeDraws := ["77aa88bb-7b4d-4e2a-9c1e-5d6f7a8b9c0d"],
    idDraw := "s-3", frontendUrl := none }

/-- Connection A joins Retro and then Standup, and disconnects. -/
def movedOn : List Event :=
  [Event.create (some "Retro") (some "alice") retroEnv,
   Event.create (some "Standup") (some "alice") standupEnv,
   Event.connect "A",
   Event.join_session "A" (some "s-1") (some "ann") 2000,
   Event.join_session "A" (some "s-2") (some "ann") 2001,
   Event.disconnect "A"]

/-! ## Lemmas on the collection and the handlers -/

theorem findOne_some {p : Session → Bool} {st : Store} {i : Nat} {s : Session}
    (h : findOne p st = some (i, s)) : st[i]? = some s ∧ p s = true := by
  induction st generalizing i with
  | nil => simp [findOne] at h
  | cons a rest ih =>
    unfold findOne at h
    by_cases hp : p a = true
    · simp [hp] at h
      obtain ⟨rfl, rfl⟩ := h
      simp [hp]
    · simp [hp] at h
      cases hr : findOne p rest with
      | none => simp [hr] at h
      | some q =>
        obtain ⟨j, d⟩ := q
        simp [hr] at h
        obtain ⟨rfl, rfl⟩ := h
        have := ih hr
        simpa using this

theorem findOne_none {p : Session → Bool} {st : Store}
    (h : findOne p st = none) : ∀ d ∈ st, p d = false := by
  induction st with
  | nil => simp
  | cons a rest ih =>
    unfold findOne at h
    by_cases hp : p a = true
    · simp [hp] at h
    · simp [hp] at h
      cases hr : findOne p rest with
      | none =>
        intro d hd
        rcases List.mem_cons.mp hd with rfl | hd
        · simpa using hp
        · exact ih hr d hd
      | some q => simp [hr] at h

theorem findOne_isSome_of_mem {p : Session → Bool} {st : Store} {d : Session}
    (hd : d ∈ st) (hp : p d = true) : ∃ i s, findOne p st = some (i, s) := by
  cases h : findOne p st with
  | none => have := findOne_none h d hd; simp [hp] at this
  | some q => exact ⟨q.1, q.2, rfl⟩

theorem saveDoc_ok {st st1 : Store} {i : Nat} {old new : Session}
    (h : saveDoc st i old new = Except.ok st1) : st1 = st.set i new := by
  simp only [saveDoc] at h
  split at h
  · cases h
  · injection h with h; exact h.symm

theorem saveDoc_of_subset (st : Store) (i : Nat) {old new : Session}
    (h : ∀ k ∈ indexKeys new, k ∈ indexKeys old) :
    saveDoc st i old new = Except.ok (st.set i new) := by
  unfold saveDoc
  have : (indexKeys new).filter (fun k => !decide (k ∈ indexKeys old)) = [] := by
    rw [List.filter_eq_nil_iff]
    intro k hk
    simp [h k hk]
  simp [this]

theorem map_set_same {β : Type} (f : Session → β) {st : Store} {i : Nat} {old new : Session}
    (h : st[i]? = some old) (hf : f new = f old) : (st.set i new).map f = st.map f := by
  induction st generalizing i with
  | nil => simp
  | cons a rest ih =>
    cases i with
    | zero => simp at h; subst h; simp [hf]
    | succ j => simp at h; simp [ih h]

theorem StoreUpd_of_find_save {p : Session → Bool} {st st1 : Store} {i : Nat} {s new : Session}
    (hf : findOne p st = some (i, s)) (hs : saveDoc st i s new = Except.ok st1)
    (hid : SameIdent new s) : StoreUpd st st1 := by
  rw [saveDoc_ok hs]
  exact StoreUpd.set i s new (findOne_some hf).1 hid

theorem sameIdent_addParticipant (s : Session) (n : String) : SameIdent (s.addParticipant n) s := by
  unfold Session.addParticipant SameIdent
  split <;> simp

theorem StoreUpd_inv {st st1 : Store} (h : StoreUpd st st1) (hinv : StoreInv st) : StoreInv st1 := by
  cases h with
  | same => exact hinv
  | set i old new hi hid =>
    obtain ⟨h1, h2, h3, h4⟩ := hinv
    obtain ⟨e1, e2, e3, e4⟩ := hid
    refine ⟨?_, ?_, ?_, ?_⟩
    · rw [map_set_same _ hi e1]; exact h1
    · rw [map_set_same _ hi e2]; exact h2
    · rw [map_set_same (fun d => (d.sessionName, d.createdBy)) hi (by simp [e3, e4])]; exact h3
    · intro d hd
      rcases List.mem_or_eq_of_mem_set hd with hd | rfl
      · exact h4 d hd
      · have := h4 old (List.getElem?_mem hi)
        simpa [requiredOk, e1, e2, e3, e4] using this

theorem StoreUpd_ids {st st1 : Store} (h : StoreUpd st st1) :
    st1.map (fun d => d.sessionId) = st.map (fun d => d.sessionId) := by
  cases h with
  | same => rfl
  | set i old new hi hid => exact map_set_same _ hi hid.1

theorem joinByCode_upd (st : Store) (code uid : Option String) (now g : Nat) :
    StoreUpd st (joinByCode st code uid now g).2 := by
  simp only [joinByCode]
  repeat' split
  all_goals first
    | exact StoreUpd.same
    | (dsimp only; refine StoreUpd_of_find_save (by assumption) (by assumption) ?_; exact (sameIdent_addParticipant _ _))

theorem updateBoard_upd (st : Store) (sid : String) (b : BoardData) :
    StoreUpd st (updateBoard st sid b).2 := by
  simp only [updateBoard]
  repeat' split
  all_goals first
    | exact StoreUpd.same
    | (dsimp only; refine StoreUpd_of_find_save (by assumption) (by assumption) ?_; exact ⟨rfl, rfl, rfl, rfl⟩)

theorem deleteSession_upd (st : Store) (sid : String) (u : Option String) :
    StoreUpd st (deleteSession st sid u).2 := by
  simp only [deleteSession]
  repeat' split
  all_goals first
    | exact StoreUpd.same
    | (dsimp only; refine StoreUpd_of_find_save (by assumption) (by assumption) ?_; exact ⟨rfl, rfl, rfl, rfl⟩)

theorem deactivate_upd (st : Store) (sid : String) :
    StoreUpd st (deactivate st sid).2 := by
  simp only [deactivate]
  repeat' split
  all_goals first
    | exact StoreUpd.same
    | (dsimp only; refine StoreUpd_of_find_save (by assumption) (by assumption) ?_; exact ⟨rfl, rfl, rfl, rfl⟩)

theorem save_board_upd (σ : Server) (c : String) (sid : Option String) (b : BoardData) :
    StoreUpd σ.store (save_board σ c sid b).1.store := by
  simp only [save_board]
  repeat' split
  all_goals first
    | exact StoreUpd.same
    | (dsimp only; refine StoreUpd_of_find_save (by assumption) (by assumption) ?_; exact ⟨rfl, rfl, rfl, rfl⟩)

theorem join_session_upd (σ : Server) (c : String) (sid name : Option String) (now : Nat) :
    StoreUpd σ.store (join_session σ c sid name now).1.store := by
  simp only [join_session]
  repeat' split
  all_goals first
    | exact StoreUpd.same
    | (dsimp only; refine StoreUpd_of_find_save (by assumption) (by assumption) ?_; exact (sameIdent_addParticipant _ _))

theorem disconnect_upd (σ : Server) (c : String) :
    StoreUpd σ.store (disconnect σ c).1.store := by
  simp only [disconnect]
  repeat' split
  all_goals first
    | exact StoreUpd.same
    | (dsimp only; refine StoreUpd_of_find_save (by assumption) (by assumption) ?_; exact ⟨rfl, rfl, rfl, rfl⟩)

theorem insertDoc_ok {st st1 : Store} {n : Session} (h : insertDoc st n = Except.ok st1) :
    st1 = st ++ [n] ∧ requiredOk n = true ∧
      ∀ d ∈ st, d.sessionId ≠ n.sessionId ∧ d.sessionCode ≠ n.sessionCode ∧
        ¬ (d.isActive = true ∧ n.isActive = true ∧ d.sessionName = n.sessionName ∧
            d.createdBy = n.createdBy) := by
  simp only [insertDoc] at h
  split at h
  · cases h
  · split at h
    · cases h
    · rename_i hr hany
      injection h with h
      refine ⟨h.symm, by simpa using hr, ?_⟩
      intro d hd
      have hd' : ∀ k ∈ indexKeys d, k ∉ indexKeys n := by
        intro k hk hk'
        apply hany
        simp only [List.any_eq_true, decide_eq_true_eq]
        exact ⟨d, hd, k, hk, hk'⟩
      refine ⟨?_, ?_, ?_⟩
      · intro e
        exact hd' (IndexKey.sessionId d.sessionId) (by simp [indexKeys]) (by simp [indexKeys, e])
      · intro e
        exact hd' (IndexKey.sessionCode d.sessionCode) (by simp [indexKeys]) (by simp [indexKeys, e])
      · rintro ⟨a1, a2, e1, e2⟩
        exact hd' (IndexKey.activeName d.sessionName d.createdBy) (by simp [indexKeys, a1])
          (by simp [indexKeys, a2, e1, e2])

theorem StoreStep_inv {st st1 : Store} (h : StoreStep st st1) (hinv : StoreInv st) :
    StoreInv st1 := by
  cases h with
  | upd h => exact StoreUpd_inv h hinv
  | insert n hr hfresh =>
    obtain ⟨h1, h2, h3, h4⟩ := hinv
    refine ⟨?_, ?_, ?_, ?_⟩
    · rw [List.map_append, List.nodup_append]
      refine ⟨h1, by simp, ?_⟩
      intro x hx hx'
      simp only [List.map_cons, List.map_nil, List.mem_singleton] at hx'
      obtain ⟨d, hd, rfl⟩ := List.mem_map.mp hx
      exact (hfresh d hd).1 hx'
    · rw [List.map_append, List.nodup_append]
      refine ⟨h2, by simp, ?_⟩
      intro x hx hx'
      simp only [List.map_cons, List.map_nil, List.mem_singleton] at hx'
      obtain ⟨d, hd, rfl⟩ := List.mem_map.mp hx
      exact (hfresh d hd).2.1 hx'
    · rw [List.map_append, List.nodup_append]
      refine ⟨h3, by simp, ?_⟩
      intro x hx hx'
      simp only [List.map_cons, List.map_nil, List.mem_singleton] at hx'
      obtain ⟨d, hd, rfl⟩ := List.mem_map.mp hx
      exact (hfresh d hd).2.2 (by simpa using hx')
    · intro d hd
      rcases List.mem_append.mp hd with hd | hd
      · exact h4 d hd
      · simp only [List.mem_singleton] at hd
        subst hd; exact hr

theorem StoreStep_ids {st st1 : Store} (h : StoreStep st st1) :
    ∀ x ∈ st.map (fun d => d.sessionId), x ∈ st1.map (fun d => d.sessionId) := by
  cases h with
  | upd h => rw [StoreUpd_ids h]; exact fun x hx => hx
  | insert n hr hfresh =>
    intro x hx
    rw [List.map_append]
    exact List.mem_append_left _ hx

theorem StoreStep_of_insert {p : Session → Bool} {st st1 : Store} {n : Session}
    (hfind : findOne p st = none) (hins : insertDoc st n = Except.ok st1)
    (hp : ∀ d : Session, d.sessionName = n.sessionName → d.createdBy = n.createdBy → p d = true) :
    StoreStep st st1 := by
  obtain ⟨rfl, hr, hfresh⟩ := insertDoc_ok hins
  refine StoreStep.insert _ hr ?_
  intro d hd
  refine ⟨(hfresh d hd).1, (hfresh d hd).2.1, ?_⟩
  rintro ⟨e1, e2⟩
  have := findOne_none hfind d hd
  rw [hp d e1 e2] at this
  cases this

theorem create_step {st st1 : Store} {n u : Option String} {env : CreateEnv} {r : Response}
    (h : create st n u env = some (r, st1)) : StoreStep st st1 := by
  simp only [create] at h
  repeat' split at h
  all_goals first
    | (cases h; done)
    | (simp only [Option.some.injEq, Prod.mk.injEq] at h
       obtain ⟨-, rfl⟩ := h
       first
        | exact StoreStep.upd StoreUpd.same
        | (refine StoreStep.upd (StoreUpd_of_find_save (by assumption) (by assumption) ?_)
           exact ⟨rfl, rfl, rfl, rfl⟩)
        | (refine StoreStep_of_insert (by assumption) (by assumption) ?_
           intro d e1 e2
           simp [e1, e2]))

theorem mem_mapSet {β : Type} {k : String} {v : β} {m : JsMap β} {e : String × β}
    (h : e ∈ mapSet k v m) : e = (k, v) ∨ e ∈ m := by
  induction m with
  | nil => simp [mapSet] at h; exact Or.inl h
  | cons a rest ih =>
    obtain ⟨k1, v1⟩ := a
    unfold mapSet at h
    split at h
    · rcases List.mem_cons.mp h with h | h
      · exact Or.inl h
      · exact Or.inr (List.mem_cons_of_mem _ h)
    · rcases List.mem_cons.mp h with h | h
      · exact Or.inr (by rw [h]; exact List.mem_cons_self _ _)
      · rcases ih h with h | h
        · exact Or.inl h
        · exact Or.inr (List.mem_cons_of_mem _ h)

theorem mem_mapDelete {β : Type} {k : String} {m : JsMap β} {e : String × β}
    (h : e ∈ mapDelete k m) : e ∈ m :=
  (List.mem_filter.mp h).1

theorem mapHas_iff {β : Type} {k : String} {m : JsMap β} :
    mapHas k m = true ↔ ∃ e ∈ m, e.1 = k := by
  simp [mapHas]

theorem findSocket_some {l : List Socket} {c : String} {s : Socket}
    (h : findSocket l c = some s) : s ∈ l ∧ s.id = c := by
  unfold findSocket at h
  have h1 := List.mem_of_find?_eq_some h
  have h2 := List.find?_some h
  exact ⟨h1, by simpa using h2⟩

theorem findSocket_none {l : List Socket} {c : String}
    (h : findSocket l c = none) : ∀ s ∈ l, s.id ≠ c := by
  unfold findSocket at h
  intro s hs
  have := List.find?_eq_none.mp h s hs
  simpa using this

theorem join_session_shape (σ : Server) (c : String) (sid name : Option String) (now : Nat) :
    (∀ e ∈ (join_session σ c sid name now).1.activeSessions,
        e ∈ σ.activeSessions ∨ ∃ d ∈ σ.store, d.sessionId = e.1) ∧
    (join_session σ c sid name now).1.sockets.map (fun s => s.id) =
      σ.sockets.map (fun s => s.id) := by
  simp only [join_session]
  repeat' split
  all_goals first
    | exact ⟨fun e he => Or.inl he, rfl⟩
    | skip
  all_goals
    have hf := findOne_some (by assumption)
    have hd := List.getElem?_mem hf.1
    have hsid := hf.2
    simp only [Bool.and_eq_true, beq_iff_eq] at hsid
    refine ⟨?_, ?_⟩
    · intro e he
      dsimp only at he
      rcases mem_mapSet he with rfl | he
      · exact Or.inr ⟨_, hd, hsid.1⟩
      · first
          | exact Or.inl he
          | (rcases mem_mapSet he with rfl | he
             · exact Or.inr ⟨_, hd, hsid.1⟩
             · exact Or.inl he)
    · dsimp only
      rw [List.map_map]
      apply List.map_congr_left
      intro s _
      simp only [Function.comp]
      split <;> rfl

theorem disconnect_shape (σ : Server) (c : String) :
    (∀ e ∈ (disconnect σ c).1.activeSessions, ∃ e0 ∈ σ.activeSessions, e0.1 = e.1) ∧
    (disconnect σ c).1.sockets.Sublist σ.sockets := by
  simp only [disconnect]
  repeat' split
  all_goals first
    | exact ⟨fun e he => ⟨e, he, rfl⟩, List.Sublist.refl _⟩
    | exact ⟨fun e he => ⟨e, he, rfl⟩, List.filter_sublist _⟩
    | exact ⟨fun e he => ⟨e, mem_mapDelete he, rfl⟩, List.filter_sublist _⟩
    | skip
  rename_i hhas _ _
  refine ⟨?_, List.filter_sublist _⟩
  intro e he
  dsimp only at he
  rcases mem_mapSet he with rfl | he
  · simp only [Bool.and_eq_true] at hhas
    exact mapHas_iff.mp hhas.2
  · exact ⟨e, he, rfl⟩

theorem relayOthers_fst (σ : Server) (c : String) (sid : Option String) (ev : OutEvent) :
    (relayOthers σ c sid ev).1 = σ := by
  simp only [relayOthers]
  repeat' split
  all_goals rfl

theorem chat_message_fst (σ : Server) (c : String) (sid m u : Option String) (now : Nat) :
    (chat_message σ c sid m u now).1 = σ := by
  simp only [chat_message]
  repeat' split
  all_goals rfl

theorem save_board_rest (σ : Server) (c : String) (sid : Option String) (b : BoardData) :
    (save_board σ c sid b).1.activeSessions = σ.activeSessions ∧
    (save_board σ c sid b).1.sockets = σ.sockets := by
  simp only [save_board]
  repeat' split
  all_goals exact ⟨rfl, rfl⟩

theorem step_store (σ : Server) (e : Event) : StoreStep σ.store (σ.step e).store := by
  cases e with
  | create n u env =>
    simp only [Server.step]
    split
    · exact create_step (by assumption)
    · exact StoreStep.upd StoreUpd.same
  | joinByCode code u now g => exact StoreStep.upd (joinByCode_upd _ _ _ _ _)
  | updateBoard sid b => exact StoreStep.upd (updateBoard_upd _ _ _)
  | deleteSession sid u => exact StoreStep.upd (deleteSession_upd _ _ _)
  | deactivate sid => exact StoreStep.upd (deactivate_upd _ _)
  | connect c =>
    simp only [Server.step, connect]
    split <;> exact StoreStep.upd StoreUpd.same
  | join_session c sid name now => exact StoreStep.upd (join_session_upd _ _ _ _ _)
  | draw_element c sid e p =>
    simp only [Server.step, draw_element, relayOthers_fst]; exact StoreStep.upd StoreUpd.same
  | update_element c sid e p =>
    simp only [Server.step, update_element, relayOthers_fst]; exact StoreStep.upd StoreUpd.same
  | delete_element c sid e p =>
    simp only [Server.step, delete_element, relayOthers_fst]; exact StoreStep.upd StoreUpd.same
  | clear_board c sid p =>
    simp only [Server.step, clear_board, relayOthers_fst]; exact StoreStep.upd StoreUpd.same
  | chat_message c sid m u now =>
    simp only [Server.step, chat_message_fst]; exact StoreStep.upd StoreUpd.same
  | save_board c sid b => exact StoreStep.upd (save_board_upd _ _ _ _)
  | disconnect c => exact StoreStep.upd (disconnect_upd _ _)

theorem ServerInv_of {σ σ1 : Server} (hinv : ServerInv σ) (hs : StoreStep σ.store σ1.store)
    (hr : ∀ e ∈ σ1.activeSessions,
      (∃ e0 ∈ σ.activeSessions, e0.1 = e.1) ∨ ∃ d ∈ σ.store, d.sessionId = e.1)
    (hk : (σ1.sockets.map (fun s => s.id)).Nodup) : ServerInv σ1 := by
  obtain ⟨h1, h2, _⟩ := hinv
  refine ⟨StoreStep_inv hs h1, ?_, hk⟩
  intro e he
  have key : e.1 ∈ σ.store.map (fun d => d.sessionId) := by
    rcases hr e he with ⟨e0, he0, h0⟩ | ⟨d, hd, h0⟩
    · obtain ⟨d, hd, h⟩ := h2 e0 he0
      exact List.mem_map.mpr ⟨d, hd, h.trans h0⟩
    · exact List.mem_map.mpr ⟨d, hd, h0⟩
  obtain ⟨d, hd, h⟩ := List.mem_map.mp (StoreStep_ids hs _ key)
  exact ⟨d, hd, h⟩

theorem ServerInv_step {σ : Server} (hinv : ServerInv σ) (e : Event) : ServerInv (σ.step e) := by
  have hs := step_store σ e
  have hsame : ∀ σ1 : Server, StoreStep σ.store σ1.store → σ1.activeSessions = σ.activeSessions →
      σ1.sockets = σ.sockets → ServerInv σ1 := by
    intro σ1 h1 h2 h3
    refine ServerInv_of hinv h1 ?_ (by rw [h3]; exact hinv.2.2)
    intro e he
    rw [h2] at he
    exact Or.inl ⟨e, he, rfl⟩
  cases e with
  | create n u env =>
    refine hsame _ hs ?_ ?_ <;> (simp only [Server.step]; split <;> rfl)
  | joinByCode code u now g => exact hsame _ hs rfl rfl
  | updateBoard sid b => exact hsame _ hs rfl rfl
  | deleteSession sid u => exact hsame _ hs rfl rfl
  | deactivate sid => exact hsame _ hs rfl rfl
  | connect c =>
    simp only [Server.step, connect]
    split
    · exact hinv
    · rename_i hnone
      refine ServerInv_of hinv (StoreStep.upd StoreUpd.same) (fun e he => Or.inl ⟨e, he, rfl⟩) ?_
      simp only [List.map_append, List.map_cons, List.map_nil]
      rw [List.nodup_append]
      refine ⟨hinv.2.2, by simp, ?_⟩
      intro x hx hx'
      simp only [List.mem_singleton] at hx'
      obtain ⟨s, hs', rfl⟩ := List.mem_map.mp hx
      have hn : findSocket σ.sockets c = none := by
        cases h : findSocket σ.sockets c with
        | none => rfl
        | some v => simp [h] at hnone
      exact findSocket_none hn s hs' hx'
  | join_session c sid name now =>
    have hsh := join_session_shape σ c sid name now
    refine ServerInv_of hinv hs ?_ ?_
    · intro e he
      rcases hsh.1 e he with h | h
      · exact Or.inl ⟨e, h, rfl⟩
      · exact Or.inr h
    · simp only [Server.step]
      rw [hsh.2]; exact hinv.2.2
  | draw_element c sid e p =>
    simp only [Server.step, draw_element, relayOthers_fst]; exact hinv
  | update_element c sid e p =>
    simp only [Server.step, update_element, relayOthers_fst]; exact hinv
  | delete_element c sid e p =>
    simp only [Server.step, delete_element, relayOthers_fst]; exact hinv
  | clear_board c sid p =>
    simp only [Server.step, clear_board, relayOthers_fst]; exact hinv
  | chat_message c sid m u now =>
    simp only [Server.step, chat_message_fst]; exact hinv
  | save_board c sid b =>
    exact hsame _ hs (save_board_rest σ c sid b).1 (save_board_rest σ c sid b).2
  | disconnect c =>
    have hsh := disconnect_shape σ c
    refine ServerInv_of hinv hs (fun e he => Or.inl (hsh.1 e he)) ?_
    exact (hsh.2.map _).nodup hinv.2.2

theorem ServerInv_init : ServerInv Server.init :=
  ⟨⟨List.nodup_nil, List.nodup_nil, List.nodup_nil, by simp [Server.init]⟩,
    by simp [Server.init], List.nodup_nil⟩

theorem ServerInv_run (es : List Event) : ∀ {σ : Server}, ServerInv σ → ServerInv (σ.run es) := by
  induction es with
  | nil => intro σ h; exact h
  | cons e es ih =>
    intro σ h
    simp only [Server.run, List.foldl_cons]
    exact ih (ServerInv_step h e)

theorem nodup_map_index {β : Type} {f : Session → β} {st : Store} (h : (st.map f).Nodup)
    {i j : Nat} {a b : Session} (hi : st[i]? = some a) (hj : st[j]? = some b)
    (hab : f a = f b) : i = j := by
  have hlen : i < (st.map f).length := by
    rw [List.length_map]
    exact (List.getElem?_eq_some_iff.mp hi).1
  apply List.getElem?_inj hlen h
  simp [List.getElem?_map, hi, hj, hab]

theorem trim_empty : trim "" = "" := by decide

theorem trim_length_ne_zero {name : String} (h : trim name ≠ "") : (trim name).length ≠ 0 := by
  intro h0
  apply h
  have : (trim name).data = [] := List.length_eq_zero.mp h0
  exact String.ext this

theorem truthy_of_trim {name : String} (h : trim name ≠ "") : truthy (some name) = some name := by
  have : name ≠ "" := by
    rintro rfl
    exact h trim_empty
  simp [truthy, this]

theorem truthy_of_length {code : String} (h : (trim code).length ≠ 0) :
    truthy (some code) = some code := by
  apply truthy_of_trim
  intro h0
  rw [h0] at h
  exact h rfl

/-- The document found by a filter that implies the `(sessionName, createdBy)`
pair of `e` is `e` itself, when pairs are unique. -/
theorem findOne_pair {st : Store} (hinv : StoreInv st) {i : Nat} {e : Session}
    (hi : st[i]? = some e) :
    findOne (fun d => d.sessionName == e.sessionName && d.createdBy == e.createdBy) st =
      some (i, e) := by
  obtain ⟨j, s, hf⟩ := findOne_isSome_of_mem
    (p := fun d => d.sessionName == e.sessionName && d.createdBy == e.createdBy)
    (List.getElem?_mem hi) (by simp)
  obtain ⟨hj, hp⟩ := findOne_some hf
  simp only [Bool.and_eq_true, beq_iff_eq] at hp
  have hij : j = i := nodup_map_index hinv.2.2.1 hj hi (by simp [hp.1, hp.2])
  subst hij
  rw [hi] at hj
  cases hj
  exact hf

theorem sessionName_ne_empty {st : Store} (hinv : StoreInv st) {e : Session} (he : e ∈ st) :
    e.sessionName ≠ "" := by
  have := hinv.2.2.2 e he
  simp only [requiredOk, Bool.and_eq_true, bne_iff_ne, ne_eq] at this
  exact this.1.2

theorem create_conflict_of_inv {st : Store} (hinv : StoreInv st) (name : String)
    (userId : Option String) (env : CreateEnv) {i : Nat} {e : Session} (hi : st[i]? = some e)
    (hact : e.isActive = true) (hname : e.sessionName = trim name)
    (hown : e.createdBy = (truthy userId).getD (createGuestUser env.guestDraw)) :
    create st (some name) userId env =
      some (⟨409, Body.conflict "You already have an active session with this name"
        e.sessionId e.sessionCode⟩, st) := by
  have hne : trim name ≠ "" := hname ▸ sessionName_ne_empty hinv (List.getElem?_mem hi)
  have hfind := findOne_pair hinv hi
  rw [hname, hown] at hfind
  simp only [create, truthy_of_trim hne, trim_length_ne_zero hne, if_false, hfind, hact, if_true]

theorem saveDoc_revive {st : Store} (hinv : StoreInv st) {i : Nat} {e new : Session}
    (hi : st[i]? = some e) (hid : SameIdent new e) :
    saveDoc st i e new = Except.ok (st.set i new) := by
  simp only [saveDoc]
  rw [if_neg]
  intro hany
  simp only [List.any_eq_true, decide_eq_true_eq, List.mem_filter, Bool.not_eq_true',
    decide_eq_false_iff_not] at hany
  obtain ⟨d, hd, k, hk, hknew, hkold⟩ := hany
  obtain ⟨j, hji, hj⟩ := List.mem_eraseIdx_iff_getElem?.mp hd
  obtain ⟨e1, e2, e3, e4⟩ := hid
  have hk' : k = IndexKey.activeName e.sessionName e.createdBy := by
    simp only [indexKeys, List.cons_append, List.nil_append, List.mem_cons, e1, e2, e3, e4]
      at hknew hkold
    rcases hknew with h | h | h
    · exact absurd (Or.inl h) hkold
    · exact absurd (Or.inr (Or.inl h)) hkold
    · split at h
      · simpa using h
      · simp at h
  subst hk'
  have hpair : d.sessionName = e.sessionName ∧ d.createdBy = e.createdBy := by
    simp only [indexKeys, List.cons_append, List.nil_append, List.mem_cons] at hk
    rcases hk with h | h | h
    · cases h
    · cases h
    · split at h
      · simp only [List.mem_singleton, IndexKey.activeName.injEq] at h
        exact ⟨h.1.symm, h.2.symm⟩
      · simp at h
  exact hji (nodup_map_index hinv.2.2.1 hj hi (by simp [hpair.1, hpair.2]))

theorem create_reactivate_of_inv {st : Store} (hinv : StoreInv st) (name : String)
    (userId : Option String) (env : CreateEnv) {i : Nat} {e : Session} (hi : st[i]? = some e)
    (hact : e.isActive = false) (hname : e.sessionName = trim name)
    (hown : e.createdBy = (truthy userId).getD (createGuestUser env.guestDraw)) :
    create st (some name) userId env =
      some (⟨200, Body.created e.sessionId e.sessionCode e.inviteLink
          (if (truthy userId).isSome then "owner" else "guest") e.createdBy e.sessionName
          e.createdAt true⟩,
        st.set i { e with isActive := true, expiresAt := env.now + sevenDays,
                          participants := [e.createdBy], boardData := emptyBoard }) := by
  have hne : trim name ≠ "" := hname ▸ sessionName_ne_empty hinv (List.getElem?_mem hi)
  have hfind := findOne_pair hinv hi
  have hsave : saveDoc st i e
      { e with isActive := true, expiresAt := env.now + sevenDays,
               participants := [e.createdBy], boardData := emptyBoard } = _ :=
    saveDoc_revive hinv hi ⟨rfl, rfl, rfl, rfl⟩
  rw [hname, hown] at hfind
  rw [hown] at hsave
  simp only [create, truthy_of_trim hne, trim_length_ne_zero hne, if_false, hfind, hact,
    Bool.false_eq_true]
  simp only [hown]
  rw [hsave]

/-! ## Session store: uniqueness -/

/-- C1: in every store reached from the empty store by any sequence of events
(create, joinByCode, updateBoard, deactivate, delete, join_session, save_board,
disconnect and the relay events), no two different documents that are both
active have the same `(sessionName, createdBy)` pair. -/
theorem active_name_owner_unique (es : List Event) :
    (Server.init.run es).store.Pairwise (fun a b =>
      ¬ (a.isActive = true ∧ b.isActive = true ∧
          a.sessionName = b.sessionName ∧ a.createdBy = b.createdBy)) := by
  have h := (ServerInv_run es ServerInv_init).1.2.2.1
  rw [List.Nodup, List.pairwise_map] at h
  refine h.imp ?_
  intro a b hab hc
  exact hab (by simp [hc.2.2.1, hc.2.2.2])

/-- C2: in every store reached from the empty store by any sequence of events, no
two different documents have the same `sessionCode`, active or not. -/
theorem sessionCode_unique (es : List Event) :
    (Server.init.run es).store.Pairwise (fun a b => a.sessionCode ≠ b.sessionCode) := by
  have h := (ServerInv_run es ServerInv_init).1.2.1
  rw [List.Nodup, List.pairwise_map] at h
  exact h

/-! ## `POST /create` on an existing name -/

/-- The save of a reactivated document is rejected by the partial unique index
when another document with the same name and owner is active. -/
theorem saveDoc_revive_duplicate {st : Store} {i j : Nat} {x e new : Session}
    (hi : st[i]? = some x) (hj : st[j]? = some e) (hx : x.isActive = false)
    (he : e.isActive = true) (hnew : new.isActive = true)
    (hn : new.sessionName = e.sessionName) (hc : new.createdBy = e.createdBy) :
    saveDoc st i x new = Except.error StoreError.duplicateKey := by
  have hji : j ≠ i := by
    rintro rfl
    rw [hi] at hj
    cases hj
    rw [hx] at he
    cases he
  have hmem : e ∈ st.eraseIdx i := List.mem_eraseIdx_iff_getElem?.mpr ⟨j, hji, hj⟩
  simp only [saveDoc]
  rw [if_pos]
  simp only [List.any_eq_true, decide_eq_true_eq, List.mem_filter, Bool.not_eq_true',
    decide_eq_false_iff_not]
  refine ⟨e, hmem, IndexKey.activeName e.sessionName e.createdBy, ?_, ?_, ?_⟩
  · simp [indexKeys, he]
  · simp [indexKeys, hnew, hn, hc]
  · simp [indexKeys, hx]

/-- C3, as stated, fails. A request to create Retro for alice looks the name up
while the collection is empty; before it saves, Retro is created for alice as
s-1 and closed; the save then inserts s-2, so the store holds the closed s-1
followed by the active s-2, both named Retro and owned by alice. On that store
a further create of Retro for alice finds s-1 first, tries to reactivate it, the
save is rejected by the unique index, and the answer is 409 with a message
only: it names neither the sessionId nor the sessionCode of the active s-2. -/
theorem active_duplicate_behind_closed_one :
    createInterleaved Server.init.store (Server.init.run retroClosed).store
        (some "Retro") (some "alice") laterEnv =
      some (⟨201, Body.created "s-2" "0A1B2C3D" "http://localhost:3000/join/0A1B2C3D"
        "owner" "alice" "Retro" 5000 false⟩, [retroClosedSession, retroSecond]) ∧
    (retroSecond ∈ [retroClosedSession, retroSecond] ∧ retroSecond.isActive = true ∧
      retroSecond.sessionName = trim "Retro" ∧ retroSecond.createdBy = "alice") ∧
    create [retroClosedSession, retroSecond] (some "Retro") (some "alice") thirdEnv =
      some (⟨409, Body.error "A session with this name already exists"⟩,
        [retroClosedSession, retroSecond]) := by
  decide

/-- C3, amended: in every store that holds an active session `e` whose name is
the trimmed, non-blank requested name and whose creator is the requested owner
(the given `userId`, or the generated guest name when none is given), and no
other active session with that name and owner (the partial unique index),
`create` answers 409 and leaves the store as it was. With `x` the first
document that has that name and owner, the one the lookup of the route returns:
when `x` is active the answer names the sessionId and the sessionCode of `e`;
when `x` is inactive the answer is the message that a session with this name
already exists, without sessionId or sessionCode. When `e` is the only document
with that name and owner, `x` is `e`. -/
theorem create_conflict (st : Store) (name : String) (userId : Option String)
    (env : CreateEnv) (e : Session) (he : e ∈ st)
    (hact : e.isActive = true) (hname : e.sessionName = trim name)
    (hown : e.createdBy = (truthy userId).getD (createGuestUser env.guestDraw))
    (hblank : (trim name).length ≠ 0)
    (hidx : ∀ x ∈ st, x.isActive = true → x.sessionName = e.sessionName →
      x.createdBy = e.createdBy → x = e) :
    ∃ i x,
      findOne (fun d => d.sessionName == trim name &&
          d.createdBy == (truthy userId).getD (createGuestUser env.guestDraw)) st =
        some (i, x) ∧
      create st (some name) userId env =
        some (⟨409,
          if x.isActive then
            Body.conflict "You already have an active session with this name"
              e.sessionId e.sessionCode
          else Body.error "A session with this name already exists"⟩, st) ∧
      ((∀ y ∈ st, y.sessionName = e.sessionName → y.createdBy = e.createdBy → y = e) →
        x = e) := by
  obtain ⟨i, x, hf⟩ := findOne_isSome_of_mem
    (p := fun d => d.sessionName == trim name &&
      d.createdBy == (truthy userId).getD (createGuestUser env.guestDraw)) he
    (by simp [hname, hown])
  obtain ⟨hi, hp⟩ := findOne_some hf
  simp only [Bool.and_eq_true, beq_iff_eq] at hp
  have hxn : x.sessionName = e.sessionName := hp.1.trans hname.symm
  have hxc : x.createdBy = e.createdBy := hp.2.trans hown.symm
  refine ⟨i, x, hf, ?_, fun huniq => huniq x (List.getElem?_mem hi) hxn hxc⟩
  by_cases hx : x.isActive = true
  · have hxe : x = e := hidx x (List.getElem?_mem hi) hx hxn hxc
    subst hxe
    simp only [create, truthy_of_length hblank, hblank, if_false, hf, hx, if_true]
  · have hx' : x.isActive = false := by simpa using hx
    obtain ⟨j, hj⟩ := List.mem_iff_getElem?.mp he
    have hsave := @saveDoc_revive_duplicate st i j x e
      { x with isActive := true, expiresAt := env.now + sevenDays,
               participants := [(truthy userId).getD (createGuestUser env.guestDraw)],
               boardData := emptyBoard } hi hj hx' hact rfl hxn hxc
    simp only [create, truthy_of_length hblank, hblank, if_false, hf, hx', Bool.false_eq_true,
      hsave]

/-- C3 amended, at a concrete input: alice has the active session Retro, the
only document of the store, and asks for it again, with spaces around the
name. -/
theorem create_conflict_witness :
    (retroSession ∈ (Server.init.run retroCreated).store ∧
      retroSession.isActive = true ∧ retroSession.sessionName = trim " Retro " ∧
      retroSession.createdBy = (truthy (some "alice")).getD (createGuestUser laterEnv.guestDraw) ∧
      (trim " Retro ").length ≠ 0 ∧
      ∀ x ∈ (Server.init.run retroCreated).store, x.isActive = true →
        x.sessionName = retroSession.sessionName → x.createdBy = retroSession.createdBy →
        x = retroSession) ∧
    create (Server.init.run retroCreated).store (some " Retro ") (some "alice") laterEnv =
      some (⟨409, Body.conflict "You already have an active session with this name"
        "s-1" "3F2A9C1E"⟩, (Server.init.run retroCreated).store) ∧
    ∃ i x,
      findOne (fun d => d.sessionName == trim " Retro " &&
          d.createdBy == (truthy (some "alice")).getD (createGuestUser laterEnv.guestDraw))
          (Server.init.run retroCreated).store =
        some (i, x) ∧
      create (Server.init.run retroCreated).store (some " Retro ") (some "alice") laterEnv =
        some (⟨409,
          if x.isActive then
            Body.conflict "You already have an active session with this name"
              retroSession.sessionId retroSession.sessionCode
          else Body.error "A session with this name already exists"⟩,
          (Server.init.run retroCreated).store) ∧
      ((∀ y ∈ (Server.init.run retroCreated).store, y.sessionName = retroSession.sessionName →
          y.createdBy = retroSession.createdBy → y = retroSession) →
        x = retroSession) :=
  ⟨by decide, by decide,
    create_conflict (Server.init.run retroCreated).store " Retro " (some "alice") laterEnv
      retroSession (by decide) (by decide) (by decide) (by decide) (by decide) (by decide)⟩

/-- C4: when the session `e` of a reachable store that matches the trimmed name
and the owner is inactive, `create` answers 200 with `reactivated = true`, the
sessionId, sessionCode and inviteLink of `e`, and the store differs only at the
position of `e`: no document is added, and `e` has `isActive = true`, the empty
board, `expiresAt = now + 7 days` and its sessionId, sessionCode, sessionName,
createdBy, createdAt and inviteLink as before. -/
theorem create_reactivates (es : List Event) (name : String) (userId : Option String)
    (env : CreateEnv) (i : Nat) (e : Session) (hi : (Server.init.run es).store[i]? = some e)
    (hact : e.isActive = false) (hname : e.sessionName = trim name)
    (hown : e.createdBy = (truthy userId).getD (createGuestUser env.guestDraw)) :
    ∃ st1 e1,
      create (Server.init.run es).store (some name) userId env =
        some (⟨200, Body.created e.sessionId e.sessionCode e.inviteLink
          (if (truthy userId).isSome then "owner" else "guest") e.createdBy e.sessionName
          e.createdAt true⟩, st1) ∧
      st1.length = (Server.init.run es).store.length ∧
      (∀ j, j ≠ i → st1[j]? = (Server.init.run es).store[j]?) ∧
      st1[i]? = some e1 ∧
      e1.isActive = true ∧ e1.boardData = ⟨[], "#ffffff"⟩ ∧
      e1.expiresAt = env.now + 7 * 24 * 60 * 60 * 1000 ∧
      e1.sessionId = e.sessionId ∧ e1.sessionCode = e.sessionCode ∧
      e1.sessionName = e.sessionName ∧ e1.createdBy = e.createdBy ∧
      e1.createdAt = e.createdAt ∧ e1.inviteLink = e.inviteLink := by
  have h := create_reactivate_of_inv (ServerInv_run es ServerInv_init).1 name userId env hi
    hact hname hown
  refine ⟨_, { e with isActive := true, expiresAt := env.now + sevenDays,
                      participants := [e.createdBy], boardData := emptyBoard },
    h, by simp, ?_, ?_, rfl, rfl, rfl, rfl, rfl, rfl, rfl, rfl, rfl⟩
  · intro j hj
    exact List.getElem?_set_ne (Ne.symm hj)
  · rw [List.getElem?_set_eq_of_lt]
    exact (List.getElem?_eq_some_iff.mp hi).1

/-- C4 at a concrete input: alice creates Retro, bob joins, the session is
deactivated, and alice creates Retro again. -/
theorem create_reactivates_witness :
    ((Server.init.run retroClosed).store[0]? = some retroClosedSession ∧
      retroClosedSession.isActive = false ∧ retroClosedSession.sessionName = trim "Retro" ∧
      retroClosedSession.createdBy =
        (truthy (some "alice")).getD (createGuestUser laterEnv.guestDraw)) ∧
    ∃ st1 e1,
      create (Server.init.run retroClosed).store (some "Retro") (some "alice") laterEnv =
        some (⟨200, Body.created "s-1" "3F2A9C1E" "http://localhost:3000/join/3F2A9C1E"
          "owner" "alice" "Retro" 1000 true⟩, st1) ∧
      st1.length = (Server.init.run retroClosed).store.length ∧
      (∀ j, j ≠ 0 → st1[j]? = (Server.init.run retroClosed).store[j]?) ∧
      st1[0]? = some e1 ∧
      e1.isActive = true ∧ e1.boardData = ⟨[], "#ffffff"⟩ ∧
      e1.expiresAt = 5000 + 7 * 24 * 60 * 60 * 1000 ∧
      e1.sessionId = "s-1" ∧ e1.sessionCode = "3F2A9C1E" ∧
      e1.sessionName = "Retro" ∧ e1.createdBy = "alice" ∧
      e1.createdAt = 1000 ∧ e1.inviteLink = "http://localhost:3000/join/3F2A9C1E" :=
  ⟨by decide,
    create_reactivates retroClosed "Retro" (some "alice") laterEnv 0 retroClosedSession
      (by decide) (by decide) (by decide) (by decide)⟩

/-- C5, as stated, fails: after alice creates Retro, bob joins, the session is
deactivated and alice creates Retro again, the answer has `reactivated = true`
and the stored participants are `["alice"]`, not the empty list. -/
theorem reactivate_participants_not_empty :
    (create (Server.init.run retroClosed).store (some "Retro") (some "alice") laterEnv).map
        (fun r => (r.1, r.2.map (fun d => d.participants))) =
      some (⟨200, Body.created "s-1" "3F2A9C1E" "http://localhost:3000/join/3F2A9C1E"
        "owner" "alice" "Retro" 1000 true⟩, [["alice"]]) ∧
    ¬ ((create (Server.init.run retroClosed).store (some "Retro") (some "alice") laterEnv).map
        (fun r => r.2.map (fun d => d.participants)) = some [[]]) := by
  decide

/-- C5, amended: when `create` reactivates the inactive session `e`, the stored
participants of `e` become the one-element list holding its creator; the names
that joined before are dropped. -/
theorem reactivate_resets_participants (es : List Event) (name : String)
    (userId : Option String) (env : CreateEnv) (i : Nat) (e : Session)
    (hi : (Server.init.run es).store[i]? = some e)
    (hact : e.isActive = false) (hname : e.sessionName = trim name)
    (hown : e.createdBy = (truthy userId).getD (createGuestUser env.guestDraw)) :
    ∃ r st1,
      create (Server.init.run es).store (some name) userId env = some (r, st1) ∧
      r.status = 200 ∧
      (st1[i]?).map (fun d => d.participants) = some [e.createdBy] := by
  have h := create_reactivate_of_inv (ServerInv_run es ServerInv_init).1 name userId env hi
    hact hname hown
  refine ⟨_, _, h, rfl, ?_⟩
  rw [List.getElem?_set_eq_of_lt _ (List.getElem?_eq_some_iff.mp hi).1]
  rfl

/-- C5 amended, at the concrete input of the reactivation of Retro. -/
theorem reactivate_resets_participants_witness :
    ((Server.init.run retroClosed).store[0]? = some retroClosedSession ∧
      retroClosedSession.isActive = false ∧ retroClosedSession.sessionName = trim "Retro" ∧
      retroClosedSession.createdBy =
        (truthy (some "alice")).getD (createGuestUser laterEnv.guestDraw)) ∧
    ∃ r st1,
      create (Server.init.run retroClosed).store (some "Retro") (some "alice") laterEnv =
        some (r, st1) ∧
      r.status = 200 ∧
      (st1[0]?).map (fun d => d.participants) = some ["alice"] :=
  ⟨by decide,
    reactivate_resets_participants retroClosed "Retro" (some "alice") laterEnv 0
      retroClosedSession (by decide) (by decide) (by decide) (by decide)⟩

/-! ## `POST /join` -/

theorem findOne_set {p : Session → Bool} {st : Store} {i : Nat} {old new : Session}
    (h : findOne p st = some (i, old)) (hp : p new = true) :
    findOne p (st.set i new) = some (i, new) := by
  induction st generalizing i with
  | nil => simp [findOne] at h
  | cons a rest ih =>
    unfold findOne at h
    by_cases hpa : p a = true
    · simp only [hpa, if_true, Option.some.injEq, Prod.mk.injEq] at h
      obtain ⟨rfl, rfl⟩ := h
      simp [findOne, hp]
    · simp only [hpa, if_false] at h
      cases hr : findOne p rest with
      | none => simp [hr] at h
      | some q =>
        obtain ⟨j, d⟩ := q
        simp only [hr, Option.some.injEq, Prod.mk.injEq] at h
        obtain ⟨rfl, rfl⟩ := h
        simp [findOne, hpa, ih hr]

theorem addParticipant_participants (s : Session) (n : String) :
    s.addParticipant n =
      { s with participants := if n ∈ s.participants then s.participants
                               else s.participants ++ [n] } := by
  unfold Session.addParticipant
  split <;> rfl

theorem saveDoc_addParticipant (st : Store) (i : Nat) (s : Session) (n : String) :
    saveDoc st i s (s.addParticipant n) = Except.ok (st.set i (s.addParticipant n)) := by
  apply saveDoc_of_subset
  intro k hk
  unfold Session.addParticipant at hk
  split at hk
  · exact hk
  · exact hk

theorem joinByCode_ok (st : Store) (code : String) (userId : Option String) (now g : Nat)
    (i : Nat) (s : Session) (hcode : (trim code).length ≠ 0)
    (hfind : findOne (fun d => d.sessionCode == toUpperCase (trim code) && d.isActive) st =
      some (i, s))
    (hexp : s.isExpired now = false) :
    joinByCode st (some code) userId now g =
      (⟨200, Body.joined s.sessionId s.sessionCode s.inviteLink
          (if s.createdBy = (truthy userId).getD (createGuestUser g) then "owner"
           else if (truthy userId).isSome then "participant" else "guest")
          s.createdBy s.sessionName s.boardData
          (s.addParticipant ((truthy userId).getD (createGuestUser g))).participants
          ((truthy userId).getD (createGuestUser g))⟩,
        st.set i (s.addParticipant ((truthy userId).getD (createGuestUser g)))) := by
  simp only [joinByCode, truthy_of_length hcode, hcode, if_false, hfind, hexp,
    Bool.false_eq_true, saveDoc_addParticipant]
  simp only [addParticipant_participants]

/-- C6: for every store, every time and every non-blank code for which the
lookup of the route (the trimmed, upper-cased code, `isActive: true`) resolves
to a session whose `expiresAt` is earlier than `now`, `joinByCode` answers 404
with the expired message for every `userId`, although the session is active,
and the store (the participants included) is unchanged. -/
theorem join_expired (st : Store) (code : String) (userId : Option String) (now g : Nat)
    (i : Nat) (s : Session) (hcode : (trim code).length ≠ 0)
    (hfind : findOne (fun d => d.sessionCode == toUpperCase (trim code) && d.isActive) st =
      some (i, s))
    (hexp : s.expiresAt < now) :
    s.isActive = true ∧
    joinByCode st (some code) userId now g =
      (⟨404, Body.error "This session has expired"⟩, st) := by
  have hact : s.isActive = true := by
    have := (findOne_some hfind).2
    simp only [Bool.and_eq_true] at this
    exact this.2
  refine ⟨hact, ?_⟩
  have he : s.isExpired now = true := by simp [Session.isExpired, hexp]
  simp only [joinByCode, truthy_of_length hcode, hcode, if_false, hfind, he, if_true]

/-- C6 at a concrete input: the session Retro one millisecond after its
`expiresAt`, joined by bob with the code in lower case and surrounded by
spaces. -/
theorem join_expired_witness :
    ((trim " 3f2a9c1e ").length ≠ 0 ∧
      findOne (fun d => d.sessionCode == toUpperCase (trim " 3f2a9c1e ") && d.isActive)
        (Server.init.run retroCreated).store = some (0, retroSession) ∧
      retroSession.expiresAt < 604801001) ∧
    retroSession.isActive = true ∧
    joinByCode (Server.init.run retroCreated).store (some " 3f2a9c1e ") (some "bob")
        604801001 0 =
      (⟨404, Body.error "This session has expired"⟩, (Server.init.run retroCreated).store) :=
  ⟨by decide,
    join_expired (Server.init.run retroCreated).store " 3f2a9c1e " (some "bob") 604801001 0 0
      retroSession (by decide) (by decide) (by decide)⟩

/-- C8: a join by code that succeeds (the lookup resolves to a session that is
not expired) answers 200 and changes only the participants of that session:
the list stays as it was when the name is already in it, and gets the name
appended at the end otherwise. Hence a second join with the same name leaves
the store as the first one did, a list without duplicates stays without
duplicates, and the old list is an initial segment of the new one. -/
theorem join_appends_once (st : Store) (code : String) (userId : Option String) (now g : Nat)
    (i : Nat) (s : Session) (hcode : (trim code).length ≠ 0)
    (hfind : findOne (fun d => d.sessionCode == toUpperCase (trim code) && d.isActive) st =
      some (i, s))
    (hexp : s.isExpired now = false) :
    (joinByCode st (some code) userId now g).1.status = 200 ∧
    (joinByCode st (some code) userId now g).2 =
      st.set i { s with participants :=
        if (truthy userId).getD (createGuestUser g) ∈ s.participants then s.participants
        else s.participants ++ [(truthy userId).getD (createGuestUser g)] } ∧
    (∀ now2 : Nat, s.isExpired now2 = false →
      (joinByCode (joinByCode st (some code) userId now g).2 (some code) userId now2 g).2 =
        (joinByCode st (some code) userId now g).2) ∧
    (s.participants.Nodup →
      (if (truthy userId).getD (createGuestUser g) ∈ s.participants then s.participants
        else s.participants ++ [(truthy userId).getD (createGuestUser g)]).Nodup) ∧
    s.participants <+:
      (if (truthy userId).getD (createGuestUser g) ∈ s.participants then s.participants
        else s.participants ++ [(truthy userId).getD (createGuestUser g)]) := by
  have h1 := joinByCode_ok st code userId now g i s hcode hfind hexp
  have hp := (findOne_some hfind).2
  refine ⟨by rw [h1], by rw [h1, addParticipant_participants], ?_, ?_, ?_⟩
  · intro now2 hexp2
    rw [h1]
    have hfind2 : findOne _ (st.set i (s.addParticipant
        ((truthy userId).getD (createGuestUser g)))) = some (i, _) :=
      findOne_set hfind (by rw [addParticipant_participants]; exact hp)
    have hexp2' : (s.addParticipant ((truthy userId).getD (createGuestUser g))).isExpired now2 =
        false := by
      rw [addParticipant_participants]; exact hexp2
    rw [joinByCode_ok _ code userId now2 g i _ hcode hfind2 hexp2']
    have hidem : (s.addParticipant ((truthy userId).getD (createGuestUser g))).addParticipant
        ((truthy userId).getD (createGuestUser g)) =
        s.addParticipant ((truthy userId).getD (createGuestUser g)) := by
      by_cases hm : (truthy userId).getD (createGuestUser g) ∈ s.participants
      · simp [Session.addParticipant, hm]
      · simp [Session.addParticipant, hm]
    simp only [hidem, List.set_set]
  · intro hnd
    split
    · exact hnd
    · rename_i hn
      rw [List.nodup_append]
      refine ⟨hnd, by simp, ?_⟩
      intro x hx hx'
      simp only [List.mem_singleton] at hx'
      exact hn (hx' ▸ hx)
  · split
    · exact List.prefix_refl _
    · exact List.prefix_append _ _

/-- C8 at a concrete input: bob joins Retro by code. -/
theorem join_appends_once_witness :
    ((trim "3f2a9c1e").length ≠ 0 ∧
      findOne (fun d => d.sessionCode == toUpperCase (trim "3f2a9c1e") && d.isActive)
        (Server.init.run retroCreated).store = some (0, retroSession) ∧
      retroSession.isExpired 2000 = false) ∧
    (joinByCode (Server.init.run retroCreated).store (some "3f2a9c1e") (some "bob") 2000 0).2 =
      [{ retroSession with participants := ["alice", "bob"] }] :=
  ⟨by decide,
    ((join_appends_once (Server.init.run retroCreated).store "3f2a9c1e" (some "bob") 2000 0 0
      retroSession (by decide) (by decide) (by decide)).2.1).trans (by decide)⟩

/-! ## Disconnect -/

theorem mapGet_of_mapHas {β : Type} {k : String} {m : JsMap β} (h : mapHas k m = true) :
    ∃ v, mapGet k m = some v := by
  induction m with
  | nil => simp [mapHas] at h
  | cons a rest ih =>
    obtain ⟨k1, v1⟩ := a
    by_cases hk : k1 = k
    · exact ⟨v1, by simp [mapGet, hk]⟩
    · have h1 : mapHas k rest = true := by
        simp only [mapHas, List.any_cons, Bool.or_eq_true, beq_iff_eq] at h
        rcases h with h | h
        · exact absurd h hk
        · exact h
      obtain ⟨v, hv⟩ := ih h1
      exact ⟨v, by simp [mapGet, hk, hv]⟩

theorem mapHas_of_mapGet {β : Type} {k : String} {m : JsMap β} {v : β}
    (h : mapGet k m = some v) : mapHas k m = true := by
  induction m with
  | nil => simp [mapGet] at h
  | cons a rest ih =>
    obtain ⟨k1, v1⟩ := a
    by_cases hk : k1 = k
    · simp [mapHas, hk]
    · simp only [mapGet, hk, if_false] at h
      have := ih h
      simp only [mapHas] at this
      simp [mapHas, this]

theorem mapGet_mapDelete_self {β : Type} (k : String) (m : JsMap β) :
    mapGet k (mapDelete k m) = none := by
  induction m with
  | nil => rfl
  | cons a rest ih =>
    obtain ⟨k1, v1⟩ := a
    by_cases hk : k1 = k
    · simpa [mapDelete, List.filter_cons, hk] using ih
    · have : mapDelete k ((k1, v1) :: rest) = (k1, v1) :: mapDelete k rest := by
        simp [mapDelete, List.filter_cons, hk]
      rw [this]
      simp [mapGet, hk, ih]

theorem mapHas_mapDelete_self {β : Type} (k : String) (m : JsMap β) :
    mapHas k (mapDelete k m) = false := by
  simp [mapHas, mapDelete]

theorem mapGet_mapDelete_ne {β : Type} {k k0 : String} (h : k ≠ k0) (m : JsMap β) :
    mapGet k (mapDelete k0 m) = mapGet k m := by
  induction m with
  | nil => rfl
  | cons a rest ih =>
    obtain ⟨k1, v1⟩ := a
    by_cases hk : k1 = k0
    · have : mapDelete k0 ((k1, v1) :: rest) = mapDelete k0 rest := by
        simp [mapDelete, List.filter_cons, hk]
      rw [this, ih]
      have : k1 ≠ k := by rw [hk]; exact Ne.symm h
      simp [mapGet, this]
    · have : mapDelete k0 ((k1, v1) :: rest) = (k1, v1) :: mapDelete k0 rest := by
        simp [mapDelete, List.filter_cons, hk]
      rw [this]
      simp only [mapGet, ih]

theorem mapGet_mapSet_self {β : Type} (k : String) (v : β) (m : JsMap β) :
    mapGet k (mapSet k v m) = some v := by
  induction m with
  | nil => simp [mapSet, mapGet]
  | cons a rest ih =>
    obtain ⟨k1, v1⟩ := a
    by_cases hk : k1 = k
    · simp [mapSet, mapGet, hk]
    · simp [mapSet, mapGet, hk, ih]

theorem mapGet_mapSet_ne {β : Type} {k k0 : String} (h : k ≠ k0) (v : β) (m : JsMap β) :
    mapGet k (mapSet k0 v m) = mapGet k m := by
  induction m with
  | nil => simp [mapSet, mapGet, Ne.symm h]
  | cons a rest ih =>
    obtain ⟨k1, v1⟩ := a
    by_cases hk : k1 = k0
    · have : k1 ≠ k := by rw [hk]; exact Ne.symm h
      simp [mapSet, mapGet, hk, Ne.symm h, this]
    · simp [mapSet, mapGet, hk, ih]

theorem set_same {α : Type} {l : List α} {i : Nat} {a : α} (h : l[i]? = some a) :
    l.set i a = l := by
  induction l generalizing i with
  | nil => rfl
  | cons x rest ih =>
    cases i with
    | zero => simp at h; simp [h]
    | succ j => simp at h; simp [ih h]

/-- The removal branch of `disconnect`: the socket is registered to a session
whose registry map holds it. -/
theorem disconnect_removal {σ : Server} {c : String} {sock : Socket} {u : UserData}
    {m : JsMap Participant} (hs : findSocket σ.sockets c = some sock)
    (hu : sock.userData = some u) (hne : u.sessionId ≠ "")
    (hm : mapGet u.sessionId σ.activeSessions = some m) (hc : mapHas c m = true) :
    (mapDelete c m = [] ∧
        (disconnect σ c).1.activeSessions = mapDelete u.sessionId σ.activeSessions ∧
        (match findOne (fun d => d.sessionId == u.sessionId) σ.store with
          | none => (disconnect σ c).1.store = σ.store
          | some (i, r) =>
            (disconnect σ c).1.store = σ.store.set i { r with isActive := false })) ∨
      (mapDelete c m ≠ [] ∧
        (disconnect σ c).1.activeSessions =
          mapSet u.sessionId (mapDelete c m) σ.activeSessions ∧
        (disconnect σ c).1.store = σ.store) := by
  have hhas : (u.sessionId != "" && mapHas u.sessionId σ.activeSessions) = true := by
    simp [hne, mapHas_of_mapGet hm]
  by_cases hrem : (mapDelete c m).length = 0
  · left
    refine ⟨List.length_eq_zero.mp hrem, ?_, ?_⟩
    · simp only [disconnect, hs, hu, hhas, hm, Option.getD_some, hc, hrem, if_true]
      repeat' split
      all_goals rfl
    · simp only [disconnect, hs, hu, hhas, hm, Option.getD_some, hc, hrem, if_true]
      cases hf : findOne (fun d => d.sessionId == u.sessionId) σ.store with
      | none => rfl
      | some q =>
        obtain ⟨i, r⟩ := q
        dsimp only
        by_cases hact : r.isActive = true
        · have hsave : saveDoc σ.store i r { r with isActive := false } =
              Except.ok (σ.store.set i { r with isActive := false }) := by
            apply saveDoc_of_subset
            intro k hk
            simp only [indexKeys, Bool.false_eq_true, if_false, List.append_nil,
              List.mem_cons, List.mem_singleton, List.not_mem_nil, or_false] at hk
            simp only [indexKeys, List.cons_append, List.nil_append, List.mem_cons]
            rcases hk with h | h
            · exact Or.inl h
            · exact Or.inr (Or.inl h)
          simp only [hact, if_true, hsave]
        · have hr : ({ r with isActive := false } : Session) = r := by
            cases r
            simp only [Bool.not_eq_true] at hact
            simp only [Session.mk.injEq, true_and, and_true]
            exact hact.symm
          simp only [hact, if_false, hr]
          have := (findOne_some hf).1
          exact (set_same this).symm
  · right
    have hne2 : mapDelete c m ≠ [] := fun h => hrem (by rw [h]; rfl)
    refine ⟨hne2, ?_, ?_⟩ <;>
      simp only [disconnect, hs, hu, hhas, hm, Option.getD_some, hc, hrem, if_true,
        if_false]

/-- What `disconnect` does to the registry and the collection. -/
theorem disconnect_effect (σ : Server) (c : String) :
    ((disconnect σ c).1.activeSessions = σ.activeSessions ∧
      (disconnect σ c).1.store = σ.store) ∨
    ∃ s0 m, mapGet s0 σ.activeSessions = some m ∧ mapHas c m = true ∧
      ((mapDelete c m = [] ∧
          (disconnect σ c).1.activeSessions = mapDelete s0 σ.activeSessions ∧
          (match findOne (fun d => d.sessionId == s0) σ.store with
            | none => (disconnect σ c).1.store = σ.store
            | some (i, r) =>
              (disconnect σ c).1.store = σ.store.set i { r with isActive := false })) ∨
        (mapDelete c m ≠ [] ∧
          (disconnect σ c).1.activeSessions = mapSet s0 (mapDelete c m) σ.activeSessions ∧
          (disconnect σ c).1.store = σ.store)) := by
  cases hs : findSocket σ.sockets c with
  | none => left; simp [disconnect, hs]
  | some sock =>
    cases hu : sock.userData with
    | none => left; simp [disconnect, hs, hu]
    | some u =>
      by_cases hhas : (u.sessionId != "" && mapHas u.sessionId σ.activeSessions) = true
      · have hhas2 : u.sessionId ≠ "" ∧ mapHas u.sessionId σ.activeSessions = true := by
          simpa using hhas
        obtain ⟨m, hm⟩ := mapGet_of_mapHas hhas2.2
        by_cases hc : mapHas c m = true
        · right
          exact ⟨u.sessionId, m, hm, hc, disconnect_removal hs hu hhas2.1 hm hc⟩
        · left
          simp only [disconnect, hs, hu, hhas, hm, Option.getD_some, hc, if_true,
            Bool.false_eq_true, if_false, and_self]
      · left
        simp only [disconnect, hs, hu, hhas, Bool.false_eq_true, if_false, and_self]

theorem deactivated_at {st : Store} (hinv : StoreInv st) {p : Session → Bool} {i : Nat}
    {r : Session} {s : String} (hf : findOne p st = some (i, r)) (hs : r.sessionId = s) :
    (∃ d ∈ st.set i { r with isActive := false }, d.sessionId = s) ∧
    ∀ d ∈ st.set i { r with isActive := false }, d.sessionId = s → d.isActive = false := by
  have hi := (findOne_some hf).1
  have hlt : i < st.length := (List.getElem?_eq_some_iff.mp hi).1
  have hnew : (st.set i { r with isActive := false })[i]? =
      some { r with isActive := false } := List.getElem?_set_eq_of_lt _ hlt
  refine ⟨⟨_, List.getElem?_mem hnew, hs⟩, ?_⟩
  intro d hd hds
  obtain ⟨j, hj⟩ := List.mem_iff_getElem?.mp hd
  by_cases hji : j = i
  · subst hji
    rw [hnew] at hj
    cases hj
    rfl
  · rw [List.getElem?_set_ne (Ne.symm hji)] at hj
    exact absurd (nodup_map_index hinv.1 hj hi (hds.trans hs.symm)) hji

theorem disconnect_last_of_inv {σ : Server} (hinv : ServerInv σ) (c s : String)
    (hc : c ∈ members σ s) (hgone : c ∉ members (disconnect σ c).1 s) :
    (members (disconnect σ c).1 s = [] →
      (∃ d ∈ (disconnect σ c).1.store, d.sessionId = s) ∧
      (∀ d ∈ (disconnect σ c).1.store, d.sessionId = s → d.isActive = false) ∧
      mapHas s (disconnect σ c).1.activeSessions = false) ∧
    (members (disconnect σ c).1 s ≠ [] → (disconnect σ c).1.store = σ.store) := by
  rcases disconnect_effect σ c with ⟨hreg, hst⟩ | ⟨s0, m, hm, hcm, hcase⟩
  · exfalso
    apply hgone
    simpa only [members, hreg] using hc
  · have hs0 : s0 = s := by
      by_contra hne
      apply hgone
      rcases hcase with ⟨_, hreg, _⟩ | ⟨_, hreg, _⟩
      · simpa only [members, hreg, mapGet_mapDelete_ne (Ne.symm hne)] using hc
      · simpa only [members, hreg, mapGet_mapSet_ne (Ne.symm hne)] using hc
    subst hs0
    rcases hcase with ⟨hrem, hreg, hst⟩ | ⟨hrem, hreg, hst⟩
    · have hmem : members (disconnect σ c).1 s0 = [] := by
        simp only [members, hreg, mapGet_mapDelete_self, Option.getD_none, List.map_nil]
      refine ⟨fun _ => ?_, fun h => absurd hmem h⟩
      obtain ⟨e, he, hek⟩ := mapHas_iff.mp (mapHas_of_mapGet hm)
      obtain ⟨d, hd, hds⟩ := hinv.2.1 e he
      obtain ⟨i, r, hf⟩ := findOne_isSome_of_mem (p := fun d => d.sessionId == s0) hd
        (by simp [hds, hek])
      rw [hf] at hst
      dsimp only at hst
      have hrs : r.sessionId = s0 := by simpa using (findOne_some hf).2
      have := deactivated_at hinv.1 hf hrs
      rw [hst, hreg]
      exact ⟨this.1, this.2, mapHas_mapDelete_self _ _⟩
    · have hmem : members (disconnect σ c).1 s0 ≠ [] := by
        simp only [members, hreg, mapGet_mapSet_self, Option.getD_some, ne_eq,
          List.map_eq_nil_iff]
        exact hrem
      exact ⟨fun h => absurd h hmem, fun _ => hst⟩

/-- C9: in every reachable state, when the disconnect of connection `c` removes
its entry from the registry map of session `s`: if no entry is left for `s`,
the store holds a document with sessionId `s`, every such document has
`isActive = false`, and `activeSessions` has no key `s`; if entries are left
for `s`, the store is unchanged. -/
theorem disconnect_last_deactivates (es : List Event) (c s : String)
    (hc : c ∈ members (Server.init.run es) s)
    (hgone : c ∉ members (disconnect (Server.init.run es) c).1 s) :
    (members (disconnect (Server.init.run es) c).1 s = [] →
      (∃ d ∈ (disconnect (Server.init.run es) c).1.store, d.sessionId = s) ∧
      (∀ d ∈ (disconnect (Server.init.run es) c).1.store, d.sessionId = s →
        d.isActive = false) ∧
      mapHas s (disconnect (Server.init.run es) c).1.activeSessions = false) ∧
    (members (disconnect (Server.init.run es) c).1 s ≠ [] →
      (disconnect (Server.init.run es) c).1.store = (Server.init.run es).store) := by
  exact disconnect_last_of_inv (ServerInv_run es ServerInv_init) c s hc hgone

/-! ## Relay of `draw_element` -/

theorem relayOthers_emits {σ : Server} {A s : String} {a : Socket} (ev : OutEvent)
    (ha : findSocket σ.sockets A = some a)
    (hreg : a.userData.map (fun u => u.sessionId) = some s) :
    (relayOthers σ A (some s) ev).2 =
      (σ.sockets.filter (fun x => x.id != A && inRoom s x)).map (fun x => ⟨x.id, ev⟩) := by
  simp only [relayOthers, ha, registeredTo, hreg, beq_self_eq_true, if_true, socketTo]

/-- C10: in every reachable state, when connection `A` is registered to
session `s` (its `socket.userData.sessionId` is `s`) and posts `draw_element`
for `s`, the event is delivered to every connected socket of room `s` other
than `A`, to no socket outside room `s`, and not to `A`; every delivery
carries the element and the page id (the word default when absent), and the
state is unchanged. -/
theorem draw_element_fanout (es : List Event) (A s : String) (a : Socket)
    (element pageId : Option String)
    (ha : findSocket (Server.init.run es).sockets A = some a)
    (hreg : a.userData.map (fun u => u.sessionId) = some s) :
    (∀ b ∈ (Server.init.run es).sockets, b.id ≠ A → inRoom s b = true →
      ⟨b.id, OutEvent.draw_element element (pageOrDefault pageId)⟩ ∈
        (draw_element (Server.init.run es) A (some s) element pageId).2) ∧
    (∀ b ∈ (Server.init.run es).sockets, inRoom s b = false →
      ∀ m ∈ (draw_element (Server.init.run es) A (some s) element pageId).2,
        m.recipient ≠ b.id) ∧
    (∀ m ∈ (draw_element (Server.init.run es) A (some s) element pageId).2,
      m.recipient ≠ A ∧ m.event = OutEvent.draw_element element (pageOrDefault pageId)) ∧
    (draw_element (Server.init.run es) A (some s) element pageId).1 = Server.init.run es := by
  have hinv := ServerInv_run es ServerInv_init
  generalize Server.init.run es = σ at ha hinv ⊢
  have hem := relayOthers_emits (OutEvent.draw_element element (pageOrDefault pageId)) ha hreg
  simp only [draw_element, hem, relayOthers_fst]
  refine ⟨?_, ?_, ?_, trivial⟩
  · intro b hb hne hroom
    apply List.mem_map.mpr
    exact ⟨b, List.mem_filter.mpr ⟨hb, by simp [hne, hroom]⟩, rfl⟩
  · intro b hb hroom m hm heq
    obtain ⟨x, hx, rfl⟩ := List.mem_map.mp hm
    obtain ⟨hxs, hxp⟩ := List.mem_filter.mp hx
    have : x = b := List.inj_on_of_nodup_map hinv.2.2 hxs hb heq
    subst this
    simp [hroom] at hxp
  · intro m hm
    obtain ⟨x, hx, rfl⟩ := List.mem_map.mp hm
    obtain ⟨_, hxp⟩ := List.mem_filter.mp hx
    simp only [Bool.and_eq_true, bne_iff_ne, ne_eq] at hxp
    exact ⟨hxp.1, rfl⟩

/-- C10 at a concrete input: A and B are in Retro, C is in Standup, and A
draws in Retro: only B receives the element. -/
theorem draw_element_fanout_witness :
    (findSocket (Server.init.run twoRooms).sockets "A" = some ⟨"A", some ⟨"s-1", "ann"⟩, ["s-1"]⟩ ∧
      (some (⟨"s-1", "ann"⟩ : UserData)).map (fun u => u.sessionId) = some "s-1") ∧
    (draw_element (Server.init.run twoRooms) "A" (some "s-1") (some "line") none).2 =
      [⟨"B", OutEvent.draw_element (some "line") "default"⟩] ∧
    (∀ b ∈ (Server.init.run twoRooms).sockets, b.id ≠ "A" → inRoom "s-1" b = true →
      ⟨b.id, OutEvent.draw_element (some "line") (pageOrDefault none)⟩ ∈
        (draw_element (Server.init.run twoRooms) "A" (some "s-1") (some "line") none).2) :=
  ⟨by decide, by decide,
    (draw_element_fanout twoRooms "A" "s-1" ⟨"A", some ⟨"s-1", "ann"⟩, ["s-1"]⟩ (some "line")
      none (by decide) (by decide)).1⟩

/-- C9 at a concrete input: bob is the only live connection of Retro and
disconnects. -/
theorem disconnect_last_deactivates_witness :
    ("A" ∈ members (Server.init.run retroLive) "s-1" ∧
      "A" ∉ members (disconnect (Server.init.run retroLive) "A").1 "s-1") ∧
    (disconnect (Server.init.run retroLive) "A").1.store.map (fun d => (d.sessionId, d.isActive)) =
      [("s-1", false)] ∧
    (members (disconnect (Server.init.run retroLive) "A").1 "s-1" = [] →
      (∃ d ∈ (disconnect (Server.init.run retroLive) "A").1.store, d.sessionId = "s-1") ∧
      (∀ d ∈ (disconnect (Server.init.run retroLive) "A").1.store, d.sessionId = "s-1" →
        d.isActive = false) ∧
      mapHas "s-1" (disconnect (Server.init.run retroLive) "A").1.activeSessions = false) :=
  ⟨by decide, by decide,
    (disconnect_last_deactivates retroLive "A" "s-1" (by decide) (by decide)).1⟩

/-! ## Join by code after the last connection left -/

theorem findOne_eq_none {p : Session → Bool} {st : Store} (h : ∀ d ∈ st, p d = false) :
    findOne p st = none := by
  cases hf : findOne p st with
  | none => rfl
  | some q =>
    obtain ⟨i, s⟩ := q
    have := findOne_some hf
    rw [h s (List.getElem?_mem this.1)] at this
    cases this.2

theorem joinByCodeWith_not_found (upper : String → String) (st : Store) (code : String)
    (userId : Option String) (now g : Nat) (hcode : (trim code).length ≠ 0)
    (h : ∀ d ∈ st, d.sessionCode = upper (trim code) → d.isActive = false) :
    joinByCodeWith upper st (some code) userId now g =
      (⟨404, Body.error "Invalid or expired session code"⟩, st) := by
  have hf : findOne (fun d => d.sessionCode == upper (trim code) && d.isActive) st =
      none := by
    apply findOne_eq_none
    intro d hd
    by_cases hc : d.sessionCode = upper (trim code)
    · simp [h d hd hc]
    · simp [hc]
  simp only [joinByCodeWith, truthy_of_length hcode, hcode, if_false, hf]

theorem joinByCodeWith_toUpperCase (st : Store) (code userId : Option String) (now g : Nat) :
    joinByCodeWith toUpperCase st code userId now g = joinByCode st code userId now g := rfl

theorem joinByCode_not_found (st : Store) (code : String) (userId : Option String)
    (now g : Nat) (hcode : (trim code).length ≠ 0)
    (h : ∀ d ∈ st, d.sessionCode = toUpperCase (trim code) → d.isActive = false) :
    joinByCode st (some code) userId now g =
      (⟨404, Body.error "Invalid or expired session code"⟩, st) :=
  joinByCodeWith_not_found toUpperCase st code userId now g hcode h

theorem create_created {st st1 : Store} {name userId : Option String} {env : CreateEnv}
    {b : Body} (h : create st name userId env = some (⟨201, b⟩, st1)) :
    ∃ rec, st1 = st ++ [rec] ∧ rec.sessionId = env.idDraw ∧
      (∀ d ∈ st, d.sessionId ≠ rec.sessionId ∧ d.sessionCode ≠ rec.sessionCode) ∧
      ∃ role, b = Body.created rec.sessionId rec.sessionCode rec.inviteLink role rec.createdBy
        rec.sessionName rec.createdAt false := by
  simp only [create] at h
  repeat' split at h
  all_goals first
    | (cases h; done)
    | (simp only [Option.some.injEq, Prod.mk.injEq, Response.mk.injEq] at h
       obtain ⟨⟨h1, h2⟩, h3⟩ := h
       first
        | (cases h1; done)
        | (have hins := insertDoc_ok (by assumption)
           subst h3
           refine ⟨_, hins.1, rfl, fun d hd => ⟨(hins.2.2 d hd).1, (hins.2.2 d hd).2.1⟩, _,
             h2.symm⟩))

theorem findSocket_map_update {l : List Socket} {c : String} {a : Socket}
    (f : Socket → Socket) (hf : ∀ s, (f s).id = s.id) (h : findSocket l c = some a) :
    findSocket (l.map (fun s => if s.id == c then f s else s)) c = some (f a) := by
  induction l with
  | nil => simp [findSocket] at h
  | cons x rest ih =>
    unfold findSocket at h ih ⊢
    by_cases hx : x.id = c
    · simp only [List.find?_cons, hx, beq_self_eq_true, Option.some.injEq] at h
      subst h
      simp [List.find?_cons, hx, hf]
    · have hx' : (x.id == c) = false := by simpa using hx
      simp only [List.find?_cons, hx'] at h
      simp only [List.map_cons, hx', Bool.false_eq_true, if_false, List.find?_cons]
      exact ih h

theorem findSocket_connect (σ : Server) (A : String) :
    ∃ a, findSocket (connect σ A).sockets A = some a := by
  unfold connect
  split
  · rename_i h
    exact Option.isSome_iff_exists.mp h
  · rename_i h
    have hn : findSocket σ.sockets A = none := by
      cases h' : findSocket σ.sockets A with
      | none => rfl
      | some v => simp [h'] at h
    refine ⟨⟨A, none, []⟩, ?_⟩
    unfold findSocket at hn ⊢
    rw [List.find?_append, hn]
    simp

theorem StoreUpd_mem {st st1 : Store} (h : StoreUpd st st1) {d : Session} (hd : d ∈ st) :
    ∃ d1 ∈ st1, SameIdent d1 d := by
  cases h with
  | same => exact ⟨d, hd, rfl, rfl, rfl, rfl⟩
  | set i old new hi hid =>
    obtain ⟨j, hj⟩ := List.mem_iff_getElem?.mp hd
    by_cases hji : j = i
    · subst hji
      rw [hi] at hj
      cases hj
      have hlt : j < st.length := (List.getElem?_eq_some_iff.mp hi).1
      exact ⟨new, List.getElem?_mem (List.getElem?_set_eq_of_lt _ hlt), hid⟩
    · refine ⟨d, List.getElem?_mem ((List.getElem?_set_ne (Ne.symm hji)).trans hj), rfl, rfl,
        rfl, rfl⟩

/-- The state after a `join_session` that sent `join_success` to the caller. -/
theorem join_session_success {σ : Server} {A sid name : String} {now : Nat}
    {x1 x2 x3 x4 : String} {b : BoardData} {r : List RosterEntry}
    (h : ⟨A, OutEvent.join_success x1 x2 x3 x4 b r⟩ ∈
      (join_session σ A (some sid) (some name) now).2) :
    sid ≠ "" ∧ ∃ a, findSocket σ.sockets A = some a ∧
      (join_session σ A (some sid) (some name) now).1.sockets =
        σ.sockets.map (fun s =>
          if s.id == A then
            { s with userData := some ⟨sid, name⟩, rooms := joinRoom sid s.rooms }
          else s) ∧
      (join_session σ A (some sid) (some name) now).1.activeSessions =
        mapSet sid (mapSet A ⟨name, now⟩
            ((mapGet sid (if mapHas sid σ.activeSessions then σ.activeSessions
              else mapSet sid [] σ.activeSessions)).getD []))
          (if mapHas sid σ.activeSessions then σ.activeSessions
            else mapSet sid [] σ.activeSessions) := by
  cases hfs : findSocket σ.sockets A with
  | none => simp [join_session, hfs] at h
  | some a =>
    have hsid : sid ≠ "" := by
      rintro rfl
      simp [join_session, hfs, truthy] at h
    have hname : name ≠ "" := by
      rintro rfl
      simp [join_session, hfs, truthy, hsid] at h
    refine ⟨hsid, a, rfl, ?_⟩
    cases hfo : findOne (fun d => d.sessionId == sid && d.isActive) σ.store with
    | none => simp [join_session, hfs, truthy, hsid, hname, hfo] at h
    | some q =>
      obtain ⟨i, s⟩ := q
      by_cases hexp : s.isExpired now = true
      · simp [join_session, hfs, truthy, hsid, hname, hfo, hexp] at h
      · simp only [join_session, hfs, truthy, hsid, hname, if_false, hfo, hexp,
          Bool.false_eq_true, saveDoc_addParticipant, and_self]

theorem connect_store (σ : Server) (A : String) :
    (connect σ A).store = σ.store ∧ (connect σ A).activeSessions = σ.activeSessions := by
  unfold connect
  split <;> exact ⟨rfl, rfl⟩

theorem run_append (σ : Server) (es fs : List Event) :
    σ.run (es ++ fs) = (σ.run es).run fs := by
  simp [Server.run, List.foldl_append]

/-- The store after a session was created, one connection joined it in real
time and disconnected: every document with the code of the new session is
inactive. -/
theorem sole_disconnect_inactive {σ0 : Server} (hinv0 : ServerInv σ0)
    {name userId : Option String} {env : CreateEnv}
    {sid c link role owner nm : String} {t : Nat} {st1 : Store} {A userName : String}
    {t1 : Nat} {x3 x4 : String} {b : BoardData} {r : List RosterEntry}
    (hcreate : create σ0.store name userId env =
      some (⟨201, Body.created sid c link role owner nm t false⟩, st1))
    (hjoin : ⟨A, OutEvent.join_success sid userName x3 x4 b r⟩ ∈
      (join_session (connect (σ0.step (Event.create name userId env)) A) A (some sid)
        (some userName) t1).2) :
    ∀ d ∈ (disconnect (join_session (connect (σ0.step (Event.create name userId env)) A) A
        (some sid) (some userName) t1).1 A).1.store,
      d.sessionCode = c → d.isActive = false := by
  obtain ⟨rec, hst1, hid, hfresh, role1, hbody⟩ := create_created hcreate
  simp only [Body.created.injEq] at hbody
  obtain ⟨hsid, hc, -⟩ := hbody
  have hinv1 := ServerInv_step hinv0 (Event.create name userId env)
  have hσ1 : σ0.step (Event.create name userId env) = { σ0 with store := st1 } := by
    simp only [Server.step, hcreate]
  generalize σ0.step (Event.create name userId env) = σ1 at hσ1 hinv1 hjoin ⊢
  have hinv2 : ServerInv (connect σ1 A) := ServerInv_step hinv1 (Event.connect A)
  have hst2 : (connect σ1 A).store = st1 := by rw [(connect_store σ1 A).1, hσ1]
  have hreg2 : (connect σ1 A).activeSessions = σ0.activeSessions := by
    rw [(connect_store σ1 A).2, hσ1]
  generalize connect σ1 A = σ2 at hinv2 hst2 hreg2 hjoin ⊢
  obtain ⟨hne, a, hfs, hsock3, hreg3⟩ := join_session_success hjoin
  have hinv3 : ServerInv (join_session σ2 A (some sid) (some userName) t1).1 :=
    ServerInv_step hinv2 (Event.join_session A (some sid) (some userName) t1)
  have hupd3 := join_session_upd σ2 A (some sid) (some userName) t1
  generalize (join_session σ2 A (some sid) (some userName) t1).1 = σ3
    at hinv3 hupd3 hsock3 hreg3 ⊢
  have hnokey : mapHas sid σ0.activeSessions = false := by
    cases hh : mapHas sid σ0.activeSessions with
    | false => rfl
    | true =>
      obtain ⟨e, he, hek⟩ := mapHas_iff.mp hh
      obtain ⟨d, hd, hds⟩ := hinv0.2.1 e he
      exact absurd (hds.trans (hek.trans hsid)) (hfresh d hd).1
  have hm3 : mapGet sid σ3.activeSessions = some [(A, ⟨userName, t1⟩)] := by
    rw [hreg3, mapGet_mapSet_self, hreg2]
    simp only [hnokey, Bool.false_eq_true, if_false, mapGet_mapSet_self, Option.getD_some,
      mapSet]
  have hfs3 : findSocket σ3.sockets A = some
      { a with userData := some ⟨sid, userName⟩, rooms := joinRoom sid a.rooms } := by
    rw [hsock3]
    exact findSocket_map_update
      (fun s => { s with userData := some ⟨sid, userName⟩, rooms := joinRoom sid s.rooms })
      (fun _ => rfl) hfs
  have hrem := @disconnect_removal σ3 A _ _ _ hfs3 rfl hne hm3 (by simp [mapHas])
  have hreg4 : (disconnect σ3 A).1.activeSessions = mapDelete sid σ3.activeSessions := by
    rcases hrem with ⟨_, h, _⟩ | ⟨h, _, _⟩
    · exact h
    · exact absurd (by simp [mapDelete]) h
  have hmem3 : A ∈ members σ3 sid := by simp [members, hm3]
  have hmem4 : members (disconnect σ3 A).1 sid = [] := by
    simp [members, hreg4, mapGet_mapDelete_self]
  have hlast := (disconnect_last_of_inv hinv3 A sid hmem3 (by rw [hmem4]; simp)).1 hmem4
  have hinv4 : ServerInv (disconnect σ3 A).1 := ServerInv_step hinv3 (Event.disconnect A)
  have hupd4 := disconnect_upd σ3 A
  generalize (disconnect σ3 A).1 = σ4 at hlast hinv4 hupd4 ⊢
  have hrec : rec ∈ σ2.store := by rw [hst2, hst1]; simp
  obtain ⟨d3, hd3, hid3⟩ := StoreUpd_mem hupd3 hrec
  obtain ⟨d4, hd4, hid4⟩ := StoreUpd_mem hupd4 hd3
  intro d hd hdc
  have hcode : d.sessionCode = d4.sessionCode := by
    rw [hdc, hid4.2.1, hid3.2.1, hc]
  have hdd : d = d4 := List.inj_on_of_nodup_map hinv4.1.2.1 hd hd4 hcode
  apply hlast.2.1 d hd
  rw [hdd, hid4.1, hid3.1, hsid]

/-- C7: whatever function `upper` the engine has for `toUpperCase`, `POST /join`
with a non-blank code answers 404 with the not-found message and leaves the
store unchanged whenever every document that has the trimmed, upper-cased code
is inactive (in particular when no document has it). In particular, from any
reachable state: after a session is created (201), connection `A` joins it in
real time (it receives `join_success`) and then disconnects, a join with any
input whose trimmed, upper-cased form is the code of that session answers not
found. With the ASCII mapping `toUpperCase` the route is `joinByCode`. -/
theorem join_not_found :
    (∀ (upper : String → String) (st : Store) (code : String) (userId : Option String)
      (now g : Nat),
      (trim code).length ≠ 0 →
      (∀ d ∈ st, d.sessionCode = upper (trim code) → d.isActive = false) →
      joinByCodeWith upper st (some code) userId now g =
        (⟨404, Body.error "Invalid or expired session code"⟩, st)) ∧
    (∀ (upper : String → String) (es : List Event) (name userId : Option String)
      (env : CreateEnv)
      (sid c link role owner nm : String) (t : Nat) (st1 : Store) (A userName : String)
      (t1 : Nat) (x3 x4 : String) (b : BoardData) (r : List RosterEntry)
      (code : String) (u : Option String) (t2 g : Nat),
      create (Server.init.run es).store name userId env =
        some (⟨201, Body.created sid c link role owner nm t false⟩, st1) →
      ⟨A, OutEvent.join_success sid userName x3 x4 b r⟩ ∈
        (join_session (Server.init.run (es ++ [Event.create name userId env, Event.connect A]))
          A (some sid) (some userName) t1).2 →
      (trim code).length ≠ 0 → upper (trim code) = c →
      joinByCodeWith upper
          (Server.init.run (es ++ [Event.create name userId env, Event.connect A,
            Event.join_session A (some sid) (some userName) t1, Event.disconnect A])).store
          (some code) u t2 g =
        (⟨404, Body.error "Invalid or expired session code"⟩,
          (Server.init.run (es ++ [Event.create name userId env, Event.connect A,
            Event.join_session A (some sid) (some userName) t1, Event.disconnect A])).store)) ∧
    (∀ (st : Store) (code userId : Option String) (now g : Nat),
      joinByCodeWith toUpperCase st code userId now g = joinByCode st code userId now g) := by
  refine ⟨joinByCodeWith_not_found, ?_, fun _ _ _ _ _ => rfl⟩
  intro upper es name userId env sid c link role owner nm t st1 A userName t1 x3 x4 b r code u
    t2 g hcreate hjoin hcode hnorm
  have hinv0 := ServerInv_run es ServerInv_init
  rw [run_append] at hjoin ⊢
  generalize Server.init.run es = σ0 at hcreate hjoin hinv0 ⊢
  apply joinByCodeWith_not_found _ _ _ _ _ _ hcode
  rw [hnorm]
  exact sole_disconnect_inactive hinv0 hcreate hjoin

/-- C7 at concrete inputs, with the ASCII mapping: a store holding only the
closed session Retro, asked for its code; and alice creating Retro, bob joining
in real time as connection A and disconnecting, then carol asking for the code
in lower case. -/
theorem join_not_found_witness :
    joinByCode (Server.init.run retroClosed).store (some "3F2A9C1E") (some "carol") 3000 0 =
      (⟨404, Body.error "Invalid or expired session code"⟩,
        (Server.init.run retroClosed).store) ∧
    joinByCodeWith toUpperCase (Server.init.run retroClosed).store (some "3F2A9C1E")
        (some "carol") 3000 0 =
      (⟨404, Body.error "Invalid or expired session code"⟩,
        (Server.init.run retroClosed).store) ∧
    joinByCodeWith toUpperCase
        (Server.init.run ([] ++ [Event.create (some "Retro") (some "alice") retroEnv,
          Event.connect "A", Event.join_session "A" (some "s-1") (some "bob") 2000,
          Event.disconnect "A"])).store
        (some " 3f2a9c1e") (some "carol") 3000 0 =
      (⟨404, Body.error "Invalid or expired session code"⟩,
        (Server.init.run ([] ++ [Event.create (some "Retro") (some "alice") retroEnv,
          Event.connect "A", Event.join_session "A" (some "s-1") (some "bob") 2000,
          Event.disconnect "A"])).store) :=
  ⟨by decide,
    join_not_found.1 toUpperCase (Server.init.run retroClosed).store "3F2A9C1E" (some "carol")
      3000 0 (by decide) (by decide),
    join_not_found.2.1 toUpperCase [] (some "Retro") (some "alice") retroEnv "s-1" "3F2A9C1E"
      "http://localhost:3000/join/3F2A9C1E" "owner" "alice" "Retro" 1000
      [retroSession] "A" "bob" 2000 "Retro" "alice" emptyBoard [⟨"A", "bob", 2000⟩]
      " 3f2a9c1e" (some "carol") 3000 0 (by decide) (by decide) (by decide) (by decide)⟩

/-! ## Real-time join: outcomes and socket invariant -/

/-- The three outcomes of `join_session`: the socket is not connected; a
`join_error` goes to the caller and nothing changes; or the join succeeds. -/
theorem join_session_cases (σ : Server) (c : String) (sessionId userName : Option String)
    (now : Nat) :
    (findSocket σ.sockets c = none ∧ join_session σ c sessionId userName now = (σ, [])) ∨
    (∃ msg, join_session σ c sessionId userName now =
        (σ, [⟨c, OutEvent.join_error msg⟩]) ∧
      ¬ ∃ sid name i r, truthy sessionId = some sid ∧ truthy userName = some name ∧
        findOne (fun d => d.sessionId == sid && d.isActive) σ.store = some (i, r) ∧
        r.isExpired now = false) ∨
    ∃ sid name i r a, truthy sessionId = some sid ∧ truthy userName = some name ∧
      findSocket σ.sockets c = some a ∧
      findOne (fun d => d.sessionId == sid && d.isActive) σ.store = some (i, r) ∧
      r.isExpired now = false ∧
      join_session σ c sessionId userName now =
        ({ store := σ.store.set i (r.addParticipant name),
           activeSessions :=
             mapSet sid (mapSet c ⟨name, now⟩
                 ((mapGet sid (if mapHas sid σ.activeSessions then σ.activeSessions
                   else mapSet sid [] σ.activeSessions)).getD []))
               (if mapHas sid σ.activeSessions then σ.activeSessions
                 else mapSet sid [] σ.activeSessions),
           sockets := σ.sockets.map (fun s =>
             if s.id == c then
               { s with userData := some ⟨sid, name⟩, rooms := joinRoom sid s.rooms }
             else s) },
          ⟨c, OutEvent.join_success sid name r.sessionName r.createdBy r.boardData
              (roster (mapSet c ⟨name, now⟩
                 ((mapGet sid (if mapHas sid σ.activeSessions then σ.activeSessions
                   else mapSet sid [] σ.activeSessions)).getD [])))⟩ ::
            socketTo (σ.sockets.map (fun s =>
                if s.id == c then
                  { s with userData := some ⟨sid, name⟩, rooms := joinRoom sid s.rooms }
                else s)) c (some sid)
              (OutEvent.user_joined name c
                (mapSet c ⟨name, now⟩
                 ((mapGet sid (if mapHas sid σ.activeSessions then σ.activeSessions
                   else mapSet sid [] σ.activeSessions)).getD [])).length
                (roster (mapSet c ⟨name, now⟩
                 ((mapGet sid (if mapHas sid σ.activeSessions then σ.activeSessions
                   else mapSet sid [] σ.activeSessions)).getD []))))) := by
  cases hfs : findSocket σ.sockets c with
  | none => left; simp [join_session, hfs]
  | some a =>
    right
    cases hs : truthy sessionId with
    | none =>
      left
      exact ⟨"Session ID is required", by simp [join_session, hfs, hs], by rintro ⟨sid, _, _, _, h, _⟩; cases h⟩
    | some sid =>
      cases hn : truthy userName with
      | none =>
        left
        exact ⟨"User name is required", by simp [join_session, hfs, hs, hn],
          by rintro ⟨_, name, _, _, _, h, _⟩; cases h⟩
      | some name =>
        cases hfo : findOne (fun d => d.sessionId == sid && d.isActive) σ.store with
        | none =>
          left
          refine ⟨"Invalid or expired session code",
            by simp [join_session, hfs, hs, hn, hfo], ?_⟩
          rintro ⟨sid1, name1, i, r, h1, h2, h3, _⟩
          cases h1
          rw [hfo] at h3
          cases h3
        | some q =>
          obtain ⟨i, r⟩ := q
          by_cases hexp : r.isExpired now = true
          · left
            refine ⟨"This session has expired",
              by simp [join_session, hfs, hs, hn, hfo, hexp], ?_⟩
            rintro ⟨sid1, name1, i1, r1, h1, h2, h3, h4⟩
            cases h1
            rw [hfo] at h3
            cases h3
            rw [hexp] at h4
            cases h4
          · right
            have hexp2 : r.isExpired now = false := by simpa using hexp
            refine ⟨sid, name, i, r, a, rfl, rfl, rfl, hfo, hexp2, ?_⟩
            simp only [join_session, hfs, hs, hn, hfo, hexp2, Bool.false_eq_true, if_false,
              saveDoc_addParticipant, mapGet_mapSet_self, Option.getD_some]
            simp only [addParticipant_participants]

theorem truthy_some {x : Option String} {s : String} (h : truthy x = some s) :
    x = some s ∧ s ≠ "" := by
  cases x with
  | none => simp [truthy] at h
  | some v =>
    simp only [truthy] at h
    split at h
    · cases h
    · rename_i hv
      cases h
      exact ⟨rfl, hv⟩

theorem mem_joinRoom (room : String) (rooms : List String) : room ∈ joinRoom room rooms := by
  unfold joinRoom
  split
  · assumption
  · simp

theorem SocketInv_of {σ σ1 : Server} (h : SocketInv σ) (hs : StoreStep σ.store σ1.store)
    (hk : ∀ s ∈ σ1.sockets, s ∈ σ.sockets ∨ ∀ u, s.userData = some u →
      u.sessionId ∈ s.rooms ∧ u.sessionId ≠ "" ∧ ∃ d ∈ σ.store, d.sessionId = u.sessionId) :
    SocketInv σ1 := by
  intro s hs1 u hu
  have key : u.sessionId ∈ s.rooms ∧ u.sessionId ≠ "" ∧
      ∃ d ∈ σ.store, d.sessionId = u.sessionId := by
    rcases hk s hs1 with h1 | h1
    · exact h s h1 u hu
    · exact h1 u hu
  obtain ⟨k1, k2, d, hd, hds⟩ := key
  refine ⟨k1, k2, ?_⟩
  have := StoreStep_ids hs _ (List.mem_map.mpr ⟨d, hd, hds⟩)
  obtain ⟨d1, hd1, h1⟩ := List.mem_map.mp this
  exact ⟨d1, hd1, h1⟩

theorem SocketInv_step {σ : Server} (hinv : SocketInv σ) (e : Event) :
    SocketInv (σ.step e) := by
  have hs := step_store σ e
  have hsame : ∀ σ1 : Server, StoreStep σ.store σ1.store → σ1.sockets = σ.sockets →
      SocketInv σ1 := by
    intro σ1 h1 h3
    refine SocketInv_of hinv h1 ?_
    intro s hs1
    rw [h3] at hs1
    exact Or.inl hs1
  cases e with
  | create n u env =>
    refine hsame _ hs ?_
    simp only [Server.step]; split <;> rfl
  | joinByCode code u now g => exact hsame _ hs rfl
  | updateBoard sid b => exact hsame _ hs rfl
  | deleteSession sid u => exact hsame _ hs rfl
  | deactivate sid => exact hsame _ hs rfl
  | connect c =>
    refine SocketInv_of hinv hs ?_
    intro s hs1
    simp only [Server.step, connect] at hs1
    split at hs1
    · exact Or.inl hs1
    · rcases List.mem_append.mp hs1 with h | h
      · exact Or.inl h
      · right
        intro u hu
        simp only [List.mem_singleton] at h
        subst h
        cases hu
  | join_session c sid name now =>
    refine SocketInv_of hinv hs ?_
    intro s hs1
    simp only [Server.step] at hs1
    rcases join_session_cases σ c sid name now with ⟨_, h⟩ | ⟨msg, h, _⟩ |
      ⟨sid1, name1, i, r, a, h1, h2, h3, h4, h5, h⟩
    · rw [h] at hs1; exact Or.inl hs1
    · rw [h] at hs1; exact Or.inl hs1
    · rw [h] at hs1
      obtain ⟨s0, hs0, rfl⟩ := List.mem_map.mp hs1
      by_cases hid : (s0.id == c) = true
      · right
        simp only [hid, if_true]
        intro u hu
        cases hu
        have hf := findOne_some h4
        simp only [Bool.and_eq_true, beq_iff_eq] at hf
        exact ⟨mem_joinRoom _ _, (truthy_some h1).2, r, List.getElem?_mem hf.1, hf.2.1⟩
      · left
        simp only [hid, Bool.false_eq_true, if_false]
        exact hs0
  | draw_element c sid e p =>
    simp only [Server.step, draw_element, relayOthers_fst]; exact hinv
  | update_element c sid e p =>
    simp only [Server.step, update_element, relayOthers_fst]; exact hinv
  | delete_element c sid e p =>
    simp only [Server.step, delete_element, relayOthers_fst]; exact hinv
  | clear_board c sid p =>
    simp only [Server.step, clear_board, relayOthers_fst]; exact hinv
  | chat_message c sid m u now =>
    simp only [Server.step, chat_message_fst]; exact hinv
  | save_board c sid b => exact hsame _ hs (save_board_rest σ c sid b).2
  | disconnect c =>
    refine SocketInv_of hinv hs ?_
    intro s hs1
    exact Or.inl ((disconnect_shape σ c).2.subset hs1)

theorem SocketInv_run (es : List Event) : SocketInv (Server.init.run es) := by
  have : ∀ (es : List Event) (σ : Server), SocketInv σ → SocketInv (σ.run es) := by
    intro es
    induction es with
    | nil => intro σ h; exact h
    | cons e es ih =>
      intro σ h
      simp only [Server.run, List.foldl_cons]
      exact ih _ (SocketInv_step h e)
  apply this
  intro s hs
  simp [Server.init] at hs

/-! ## Chat relay and board save -/

theorem registered_inRoom {σ : Server} (hinv : SocketInv σ) {A s : String} {a : Socket}
    (ha : findSocket σ.sockets A = some a)
    (hreg : a.userData.map (fun u => u.sessionId) = some s) :
    a ∈ σ.sockets ∧ a.id = A ∧ inRoom s a = true ∧ s ≠ "" ∧ ∃ d ∈ σ.store, d.sessionId = s := by
  obtain ⟨hmem, hid⟩ := findSocket_some ha
  cases hu : a.userData with
  | none => simp [hu] at hreg
  | some u =>
    simp only [hu, Option.map_some', Option.some.injEq] at hreg
    obtain ⟨h1, h2, h3⟩ := hinv a hmem u hu
    rw [hreg] at h1 h2 h3
    exact ⟨hmem, hid, by simp [inRoom, h1], h2, h3⟩

/-- C11: in every reachable state, when connection `A` is registered to
session `s` (its `socket.userData.sessionId` is `s`) and posts `chat_message`
for `s`, the message is delivered to every connected socket of room `s`, `A`
included, and to no socket outside room `s`; every delivery carries the
sender name and the text of the payload and, as timestamp, the clock of the
server at the time of the handler; the state is unchanged. -/
theorem chat_message_fanout (es : List Event) (A s : String) (a : Socket)
    (message userName : Option String) (now : Nat)
    (ha : findSocket (Server.init.run es).sockets A = some a)
    (hreg : a.userData.map (fun u => u.sessionId) = some s) :
    (∀ b ∈ (Server.init.run es).sockets, inRoom s b = true →
      ⟨b.id, OutEvent.chat_message userName message now⟩ ∈
        (chat_message (Server.init.run es) A (some s) message userName now).2) ∧
    ⟨A, OutEvent.chat_message userName message now⟩ ∈
        (chat_message (Server.init.run es) A (some s) message userName now).2 ∧
    (∀ b ∈ (Server.init.run es).sockets, inRoom s b = false →
      ∀ m ∈ (chat_message (Server.init.run es) A (some s) message userName now).2,
        m.recipient ≠ b.id) ∧
    (∀ m ∈ (chat_message (Server.init.run es) A (some s) message userName now).2,
      m.event = OutEvent.chat_message userName message now) ∧
    (chat_message (Server.init.run es) A (some s) message userName now).1 =
      Server.init.run es := by
  have hinv := ServerInv_run es ServerInv_init
  have hsock := SocketInv_run es
  generalize Server.init.run es = σ at ha hinv hsock ⊢
  obtain ⟨hmem, hid, hroom, -, -⟩ := registered_inRoom hsock ha hreg
  have hem : (chat_message σ A (some s) message userName now).2 =
      (σ.sockets.filter (fun x => inRoom s x)).map
        (fun x => ⟨x.id, OutEvent.chat_message userName message now⟩) := by
    simp only [chat_message, ha, registeredTo, hreg, beq_self_eq_true, if_true, serverTo]
  have hall : ∀ b ∈ σ.sockets, inRoom s b = true →
      (⟨b.id, OutEvent.chat_message userName message now⟩ : Emit) ∈
        (chat_message σ A (some s) message userName now).2 := by
    intro b hb hr
    rw [hem]
    exact List.mem_map.mpr ⟨b, List.mem_filter.mpr ⟨hb, hr⟩, rfl⟩
  refine ⟨hall, ?_, ?_, ?_, chat_message_fst _ _ _ _ _ _⟩
  · have := hall a hmem hroom
    rwa [hid] at this
  · intro b hb hroom2 m hm heq
    rw [hem] at hm
    obtain ⟨x, hx, rfl⟩ := List.mem_map.mp hm
    obtain ⟨hxs, hxp⟩ := List.mem_filter.mp hx
    have : x = b := List.inj_on_of_nodup_map hinv.2.2 hxs hb heq
    subst this
    rw [hroom2] at hxp
    cases hxp
  · intro m hm
    rw [hem] at hm
    obtain ⟨x, _, rfl⟩ := List.mem_map.mp hm
    rfl

/-- C11 at a concrete input: A and B are in Retro, C is in Standup, and A
chats in Retro at time 3000: A and B receive the message. -/
theorem chat_message_fanout_witness :
    (findSocket (Server.init.run twoRooms).sockets "A" = some ⟨"A", some ⟨"s-1", "ann"⟩, ["s-1"]⟩ ∧
      (some (⟨"s-1", "ann"⟩ : UserData)).map (fun u => u.sessionId) = some "s-1") ∧
    (chat_message (Server.init.run twoRooms) "A" (some "s-1") (some "hi") (some "ann") 3000).2 =
      [⟨"A", OutEvent.chat_message (some "ann") (some "hi") 3000⟩,
       ⟨"B", OutEvent.chat_message (some "ann") (some "hi") 3000⟩] ∧
    ⟨"A", OutEvent.chat_message (some "ann") (some "hi") 3000⟩ ∈
      (chat_message (Server.init.run twoRooms) "A" (some "s-1") (some "hi") (some "ann") 3000).2 :=
  ⟨by decide, by decide,
    (chat_message_fanout twoRooms "A" "s-1" ⟨"A", some ⟨"s-1", "ann"⟩, ["s-1"]⟩ (some "hi")
      (some "ann") 3000 (by decide) (by decide)).2.1⟩

theorem saveDoc_board (st : Store) (i : Nat) (r : Session) (b : BoardData) :
    saveDoc st i r { r with boardData := b } = Except.ok (st.set i { r with boardData := b }) :=
  saveDoc_of_subset st i (fun _ hk => hk)

/-- C13: in every reachable state, when connection `A` is registered to
session `s` and posts `save_board` for `s` with the snapshot `b`: the store
holds exactly one document `r` with sessionId `s`; afterwards that document
is `r` with `boardData` replaced by `b` and every other field as before,
every other document, the registry and the sockets are unchanged, and the
only event sent is one `save_success` to `A`. -/
theorem save_board_replaces (es : List Event) (A s : String) (a : Socket) (b : BoardData)
    (ha : findSocket (Server.init.run es).sockets A = some a)
    (hreg : a.userData.map (fun u => u.sessionId) = some s) :
    ∃ i r, (Server.init.run es).store[i]? = some r ∧ r.sessionId = s ∧
      (∀ j d, (Server.init.run es).store[j]? = some d → d.sessionId = s → j = i) ∧
      save_board (Server.init.run es) A (some s) b =
        ({ store := (Server.init.run es).store.set i { r with boardData := b },
           activeSessions := (Server.init.run es).activeSessions,
           sockets := (Server.init.run es).sockets },
          [⟨A, OutEvent.save_success⟩]) := by
  have hinv := ServerInv_run es ServerInv_init
  have hsock := SocketInv_run es
  generalize Server.init.run es = σ at ha hinv hsock ⊢
  obtain ⟨-, -, -, -, d, hd, hds⟩ := registered_inRoom hsock ha hreg
  obtain ⟨i, r, hf⟩ := findOne_isSome_of_mem (p := sessionIdFilter (some s)) hd
    (by simp [sessionIdFilter, hds])
  have hfs := findOne_some hf
  have hrs : r.sessionId = s := by simpa [sessionIdFilter] using hfs.2
  refine ⟨i, r, hfs.1, hrs, ?_, ?_⟩
  · intro j d1 hj hd1
    exact nodup_map_index hinv.1.1 hj hfs.1 (hd1.trans hrs.symm)
  · simp only [save_board, ha, registeredTo, hreg, beq_self_eq_true, if_true, hf,
      saveDoc_board]

/-- C13 at a concrete input: bob, connected as A and joined to Retro, saves a
board. -/
theorem save_board_replaces_witness :
    (findSocket (Server.init.run retroLive).sockets "A" = some ⟨"A", some ⟨"s-1", "bob"⟩, ["s-1"]⟩ ∧
      (some (⟨"s-1", "bob"⟩ : UserData)).map (fun u => u.sessionId) = some "s-1") ∧
    (save_board (Server.init.run retroLive) "A" (some "s-1") ⟨["line"], "#000000"⟩).1.store =
      [{ retroSession with participants := ["alice", "bob"],
                           boardData := ⟨["line"], "#000000"⟩ }] ∧
    ∃ i r, (Server.init.run retroLive).store[i]? = some r ∧ r.sessionId = "s-1" ∧
      (∀ j d, (Server.init.run retroLive).store[j]? = some d → d.sessionId = "s-1" → j = i) ∧
      save_board (Server.init.run retroLive) "A" (some "s-1") ⟨["line"], "#000000"⟩ =
        ({ store := (Server.init.run retroLive).store.set i
             { r with boardData := ⟨["line"], "#000000"⟩ },
           activeSessions := (Server.init.run retroLive).activeSessions,
           sockets := (Server.init.run retroLive).sockets },
          [⟨"A", OutEvent.save_success⟩]) :=
  ⟨by decide, by decide,
    save_board_replaces retroLive "A" "s-1" ⟨"A", some ⟨"s-1", "bob"⟩, ["s-1"]⟩
      ⟨["line"], "#000000"⟩ (by decide) (by decide)⟩

/-! ## Guard mismatch, deactivate and delete -/

theorem guard_mismatch_silent {σ : Server} {c : String} {a : Socket} (sid : Option String)
    (ha : findSocket σ.sockets c = some a) (hmis : registeredTo a sid = false)
    (e p m u : Option String) (now : Nat) (b : BoardData) :
    draw_element σ c sid e p = (σ, []) ∧ update_element σ c sid e p = (σ, []) ∧
    delete_element σ c sid e p = (σ, []) ∧ clear_board σ c sid p = (σ, []) ∧
    chat_message σ c sid m u now = (σ, []) ∧ save_board σ c sid b = (σ, []) := by
  simp [draw_element, update_element, delete_element, clear_board, chat_message, save_board,
    relayOthers, ha, hmis]

theorem absent_session_relay_silent (σ : Server) (c : String) (e p m u : Option String)
    (now : Nat) :
    draw_element σ c none e p = (σ, []) ∧ update_element σ c none e p = (σ, []) ∧
    delete_element σ c none e p = (σ, []) ∧ clear_board σ c none p = (σ, []) ∧
    chat_message σ c none m u now = (σ, []) := by
  simp only [draw_element, update_element, delete_element, clear_board, chat_message,
    relayOthers, socketTo, serverTo]
  cases findSocket σ.sockets c with
  | none => simp
  | some a => simp

/-- C12: for each of `draw_element`, `update_element`, `delete_element`,
`clear_board`, `chat_message` and `save_board`, in every state: when the
sending connection has not joined any session (whatever `sessionId` the payload
names, an absent one included), or has joined a session other than the one the
payload names, the handler sends no event to any connection, the sender
included (so no error event either), and the store, the registry and the
sockets are as before. -/
theorem unregistered_sender_silent (σ : Server) (c : String) (a : Socket) (sid : Option String)
    (ha : findSocket σ.sockets c = some a)
    (hmis : a.userData = none ∨ a.userData.map (fun u => u.sessionId) ≠ sid)
    (e p m u : Option String) (now : Nat) (b : BoardData) :
    draw_element σ c sid e p = (σ, []) ∧ update_element σ c sid e p = (σ, []) ∧
    delete_element σ c sid e p = (σ, []) ∧ clear_board σ c sid p = (σ, []) ∧
    chat_message σ c sid m u now = (σ, []) ∧ save_board σ c sid b = (σ, []) := by
  by_cases hreg : registeredTo a sid = true
  · have hsid : a.userData.map (fun u => u.sessionId) = sid := by
      simpa [registeredTo] using hreg
    rcases hmis with hnone | hne
    · rw [hnone] at hsid
      have hs : sid = none := hsid.symm
      subst hs
      obtain ⟨h1, h2, h3, h4, h5⟩ := absent_session_relay_silent σ c e p m u now
      refine ⟨h1, h2, h3, h4, h5, ?_⟩
      have hf : findOne (sessionIdFilter none) σ.store = none :=
        findOne_eq_none (fun _ _ => rfl)
      simp only [save_board, ha, hf]
      split <;> rfl
    · exact absurd hsid hne
  · exact guard_mismatch_silent sid ha (by simpa using hreg) e p m u now b

/-- C12 at concrete inputs: connection Z never joined a session and posts
`save_board` without a `sessionId` while the store holds Retro; connection C,
joined to Standup, posts to Retro. -/
theorem unregistered_sender_silent_witness :
    (findSocket (Server.init.run strangerConnected).sockets "Z" = some ⟨"Z", none, []⟩ ∧
      (Server.init.run strangerConnected).store = [retroSession]) ∧
    (findSocket (Server.init.run twoRooms).sockets "C" =
        some ⟨"C", some ⟨"s-2", "cy"⟩, ["s-2"]⟩) ∧
    save_board (Server.init.run strangerConnected) "Z" none ⟨["scribble"], "#000000"⟩ =
      (Server.init.run strangerConnected, []) ∧
    chat_message (Server.init.run twoRooms) "C" (some "s-1") (some "hi") (some "cy") 3000 =
      (Server.init.run twoRooms, []) :=
  ⟨by decide, by decide,
    (unregistered_sender_silent (Server.init.run strangerConnected) "Z" ⟨"Z", none, []⟩ none
      (by decide) (Or.inl rfl) none none none none 0 ⟨["scribble"], "#000000"⟩).2.2.2.2.2,
    (unregistered_sender_silent (Server.init.run twoRooms) "C"
      ⟨"C", some ⟨"s-2", "cy"⟩, ["s-2"]⟩ (some "s-1")
      (by decide) (Or.inr (by decide)) none none (some "hi") (some "cy") 3000
      emptyBoard).2.2.2.2.1⟩

theorem findOne_sessionId {st : Store} (hinv : StoreInv st) {i : Nat} {r : Session}
    (hi : st[i]? = some r) :
    findOne (fun d => d.sessionId == r.sessionId) st = some (i, r) := by
  obtain ⟨j, s, hf⟩ := findOne_isSome_of_mem (p := fun d => d.sessionId == r.sessionId)
    (List.getElem?_mem hi) (by simp)
  obtain ⟨hj, hp⟩ := findOne_some hf
  simp only [beq_iff_eq] at hp
  have hij : j = i := nodup_map_index hinv.1 hj hi hp
  subst hij
  rw [hi] at hj
  cases hj
  exact hf

theorem saveDoc_deactivate (st : Store) (i : Nat) (r : Session) :
    saveDoc st i r { r with isActive := false } =
      Except.ok (st.set i { r with isActive := false }) := by
  apply saveDoc_of_subset
  intro k hk
  simp only [indexKeys, Bool.false_eq_true, if_false, List.append_nil,
    List.mem_cons, List.mem_singleton, List.not_mem_nil, or_false] at hk
  simp only [indexKeys, List.cons_append, List.nil_append, List.mem_cons]
  rcases hk with h | h
  · exact Or.inl h
  · exact Or.inr (Or.inl h)

/-- C14, as stated, fails: the route reads no requester. After alice created
Retro, a `PUT /s-1/deactivate` sent by anyone (bob, or nobody named) answers
200 and the session is inactive; no request is answered 403. -/
theorem deactivate_not_owner_only :
    deactivate (Server.init.run retroCreated).store "s-1" =
      (⟨200, Body.message "Session deactivated successfully"⟩,
        [{ retroSession with isActive := false }]) ∧
    (deactivate (Server.init.run retroCreated).store "s-1").1.status ≠ 403 := by
  decide

/-- C14, amended: `deactivate` depends on the sessionId only. In every reachable
store, for the session `r` with that sessionId and whoever sends the request,
it answers 200, sets `isActive = false` on `r` and changes nothing else; when
no document has the sessionId it answers 404 and the store is unchanged. -/
theorem deactivate_any_requester (es : List Event) (sid : String) :
    (∀ (i : Nat) (r : Session), (Server.init.run es).store[i]? = some r → r.sessionId = sid →
      deactivate (Server.init.run es).store sid =
        (⟨200, Body.message "Session deactivated successfully"⟩,
          (Server.init.run es).store.set i { r with isActive := false })) ∧
    ((∀ d ∈ (Server.init.run es).store, d.sessionId ≠ sid) →
      deactivate (Server.init.run es).store sid =
        (⟨404, Body.error "Session not found"⟩, (Server.init.run es).store)) := by
  have hinv := (ServerInv_run es ServerInv_init).1
  generalize (Server.init.run es).store = st at hinv ⊢
  constructor
  · intro i r hi hs
    subst hs
    simp only [deactivate, findOne_sessionId hinv hi, saveDoc_deactivate]
  · intro h
    have hf : findOne (fun d => d.sessionId == sid) st = none :=
      findOne_eq_none (fun d hd => by simpa using h d hd)
    simp only [deactivate, hf]

/-- C14 amended, at a concrete input: the session Retro of alice. -/
theorem deactivate_any_requester_witness :
    ((Server.init.run retroCreated).store[0]? = some retroSession ∧
      retroSession.sessionId = "s-1") ∧
    deactivate (Server.init.run retroCreated).store "s-1" =
      (⟨200, Body.message "Session deactivated successfully"⟩,
        (Server.init.run retroCreated).store.set 0 { retroSession with isActive := false }) :=
  ⟨by decide,
    (deactivate_any_requester retroCreated "s-1").1 0 retroSession (by decide) (by decide)⟩

/-- C15: `delete` in every reachable store. When no document has the
sessionId it answers 404; when the document `r` with the sessionId has a
creator other than the `userId` of the request (an absent `userId` included)
it answers 403; in both cases the store is unchanged. When `userId` is the
creator it answers 200 and the store differs only in that `r` has
`isActive = false`: `r` is still there with every other field as before,
and the number of documents is the same. -/
theorem delete_owner_only (es : List Event) (sid : String) (userId : Option String) :
    ((∀ d ∈ (Server.init.run es).store, d.sessionId ≠ sid) →
      deleteSession (Server.init.run es).store sid userId =
        (⟨404, Body.error "Session not found"⟩, (Server.init.run es).store)) ∧
    (∀ (i : Nat) (r : Session), (Server.init.run es).store[i]? = some r → r.sessionId = sid →
      userId ≠ some r.createdBy →
      deleteSession (Server.init.run es).store sid userId =
        (⟨403, Body.error "Only the session owner can delete this session"⟩,
          (Server.init.run es).store)) ∧
    (∀ (i : Nat) (r : Session), (Server.init.run es).store[i]? = some r → r.sessionId = sid →
      userId = some r.createdBy →
      deleteSession (Server.init.run es).store sid userId =
        (⟨200, Body.message "Session deleted successfully"⟩,
          (Server.init.run es).store.set i { r with isActive := false }) ∧
      ((Server.init.run es).store.set i { r with isActive := false }).length =
        (Server.init.run es).store.length ∧
      ((Server.init.run es).store.set i { r with isActive := false })[i]? =
        some { r with isActive := false }) := by
  have hinv := (ServerInv_run es ServerInv_init).1
  generalize (Server.init.run es).store = st at hinv ⊢
  refine ⟨?_, ?_, ?_⟩
  · intro h
    have hf : findOne (fun d => d.sessionId == sid) st = none :=
      findOne_eq_none (fun d hd => by simpa using h d hd)
    simp only [deleteSession, hf]
  · intro i r hi hs hne
    subst hs
    have hne2 : some r.createdBy ≠ userId := fun h => hne h.symm
    simp only [deleteSession, findOne_sessionId hinv hi, ne_eq, hne2, not_false_eq_true,
      if_true]
  · intro i r hi hs heq
    subst hs
    refine ⟨?_, by simp, ?_⟩
    · simp only [deleteSession, findOne_sessionId hinv hi, ne_eq, heq, not_true_eq_false,
        if_false, saveDoc_deactivate]
    · exact List.getElem?_set_eq_of_lt _ (List.getElem?_eq_some_iff.mp hi).1

/-- C15 at concrete inputs on the session Retro of alice: an unknown id, bob
asking, and alice asking. -/
theorem delete_owner_only_witness :
    deleteSession (Server.init.run retroCreated).store "s-9" (some "alice") =
      (⟨404, Body.error "Session not found"⟩, (Server.init.run retroCreated).store) ∧
    deleteSession (Server.init.run retroCreated).store "s-1" (some "bob") =
      (⟨403, Body.error "Only the session owner can delete this session"⟩,
        (Server.init.run retroCreated).store) ∧
    deleteSession (Server.init.run retroCreated).store "s-1" (some "alice") =
      (⟨200, Body.message "Session deleted successfully"⟩,
        (Server.init.run retroCreated).store.set 0 { retroSession with isActive := false }) :=
  ⟨(delete_owner_only retroCreated "s-9" (some "alice")).1 (by decide),
    (delete_owner_only retroCreated "s-1" (some "bob")).2.1 0 retroSession (by decide)
      (by decide) (by decide),
    ((delete_owner_only retroCreated "s-1" (some "alice")).2.2 0 retroSession (by decide)
      (by decide) (by decide)).1⟩

/-! ## Listing by owner -/

/-- What `GET /user/:userId` lists: the documents of the owner that are active
and whose `expiresAt` is strictly later than `now`, by `createdAt` descending;
the route does not write to the store. -/
theorem listByOwner_listing (st : Store) (userId : String) (now : Nat) :
    ∃ l, listByOwner st userId now = ⟨200, Body.sessions l⟩ ∧
      (∀ d, d ∈ l ↔ (d ∈ st ∧ d.createdBy = userId ∧ d.isActive = true ∧ d.expiresAt > now)) ∧
      l.Sorted (fun a b => a.createdAt ≥ b.createdAt) := by
  haveI : IsTotal Session (fun a b => a.createdAt ≥ b.createdAt) :=
    ⟨fun a b => Nat.le_total b.createdAt a.createdAt⟩
  haveI : IsTrans Session (fun a b => a.createdAt ≥ b.createdAt) :=
    ⟨fun a b c hab hbc => Nat.le_trans hbc hab⟩
  refine ⟨_, rfl, ?_, List.sorted_insertionSort _ _⟩
  intro d
  rw [(List.perm_insertionSort _ _).mem_iff, List.mem_filter]
  simp only [Bool.and_eq_true, beq_iff_eq, decide_eq_true_eq, and_assoc]

/-! ## Roster order and code allocation -/

/-- C16 fails at the boundary: at the very millisecond `expiresAt` of the
active session Retro, `isExpired` is false and `GET /s-1` returns the session,
but the list of alice is empty; one millisecond earlier the session is
listed. -/
theorem listByOwner_excludes_boundary :
    (Server.init.run retroCreated).store = [retroSession] ∧
    retroSession.expiresAt = 604801000 ∧
    retroSession.isExpired 604801000 = false ∧
    getSession (Server.init.run retroCreated).store "s-1" 604801000 =
      ⟨200, Body.session retroSession⟩ ∧
    listByOwner (Server.init.run retroCreated).store "alice" 604801000 =
      ⟨200, Body.sessions []⟩ ∧
    listByOwner (Server.init.run retroCreated).store "alice" 604800999 =
      ⟨200, Body.sessions [retroSession]⟩ := by
  decide

/-- C20 fails when a connection joins twice: A joins Retro at 2000, B at 2001
and A again at 2002. The entry of A keeps its first position in the map and
gets the new `joinedAt`, so the roster is A (2002), B (2001): the join times
decrease. The same roster is sent in the last `join_success`. -/
theorem roster_not_ordered_after_rejoin :
    roster ((mapGet "s-1" (Server.init.run rejoined).activeSessions).getD []) =
      [⟨"A", "ann", 2002⟩, ⟨"B", "bob", 2001⟩] ∧
    (join_session (Server.init.run (rejoined.take 5)) "A" (some "s-1") (some "ann") 2002).2.head? =
      some ⟨"A", OutEvent.join_success "s-1" "ann" "Retro" "alice" emptyBoard
        [⟨"A", "ann", 2002⟩, ⟨"B", "bob", 2001⟩]⟩ ∧
    ¬ ((roster ((mapGet "s-1" (Server.init.run rejoined).activeSessions).getD [])).map
        (fun e => e.joinedAt)).Sorted (fun x y => x ≤ y) := by
  decide

theorem allocCode_first (st : Store) (draws : List String)
    (h : ∃ u ∈ draws, ∀ d ∈ st, d.sessionCode ≠ generateSessionCode u) :
    ∃ pre u post, draws = pre ++ u :: post ∧
      (∀ v ∈ pre, ∃ d ∈ st, d.sessionCode = generateSessionCode v) ∧
      (∀ d ∈ st, d.sessionCode ≠ generateSessionCode u) ∧
      ∀ rest, allocCode st (pre ++ u :: rest) = some (generateSessionCode u) := by
  induction draws with
  | nil => obtain ⟨u, hu, _⟩ := h; cases hu
  | cons x xs ih =>
    cases hf : findOne (fun d => d.sessionCode == generateSessionCode x) st with
    | none =>
      refine ⟨[], x, xs, rfl, by simp, ?_, ?_⟩
      · intro d hd
        simpa using findOne_none hf d hd
      · intro rest
        simp [allocCode, hf]
    | some q =>
      have hused : ∃ d ∈ st, d.sessionCode = generateSessionCode x := by
        have := findOne_some (i := q.1) (s := q.2) hf
        exact ⟨q.2, List.getElem?_mem this.1, by simpa using this.2⟩
      have h' : ∃ u ∈ xs, ∀ d ∈ st, d.sessionCode ≠ generateSessionCode u := by
        obtain ⟨u, hu, hfree⟩ := h
        rcases List.mem_cons.mp hu with rfl | hu
        · obtain ⟨d, hd, hdc⟩ := hused
          exact absurd hdc (hfree d hd)
        · exact ⟨u, hu, hfree⟩
      obtain ⟨pre, u, post, hxs, hpre, hfree, hall⟩ := ih h'
      refine ⟨x :: pre, u, post, by simp [hxs], ?_, hfree, ?_⟩
      · intro v hv
        rcases List.mem_cons.mp hv with rfl | hv
        · exact hused
        · exact hpre v hv
      · intro rest
        simp only [List.cons_append, allocCode, hf]
        exact hall rest

theorem create_created_code {st st1 : Store} {name userId : Option String} {env : CreateEnv}
    {sid c link role owner nm : String} {t : Nat} {re : Bool}
    (h : create st name userId env =
      some (⟨201, Body.created sid c link role owner nm t re⟩, st1)) :
    allocCode st env.codeDraws = some c ∧
    link = (truthy env.frontendUrl).getD "http://localhost:3000" ++ "/join/" ++ c ∧
    ∃ rec, st1 = st ++ [rec] ∧ rec.sessionCode = c ∧ rec.inviteLink = link ∧
      rec.sessionId = sid := by
  simp only [create] at h
  repeat' split at h
  all_goals first
    | (cases h; done)
    | (simp only [Option.some.injEq, Prod.mk.injEq, Response.mk.injEq, Body.created.injEq,
         reduceCtorEq, and_false, false_and] at h; done)
    | (simp only [Option.some.injEq, Prod.mk.injEq, Response.mk.injEq, Body.created.injEq] at h
       obtain ⟨⟨h1, h2⟩, h3⟩ := h
       first
        | (cases h1; done)
        | (have hins := insertDoc_ok (by assumption)
           obtain ⟨e1, e2, e3, -⟩ := h2
           subst h3 e2 e3 e1
           exact ⟨by assumption, rfl, _, hins.1, rfl, rfl, rfl⟩))

theorem hex_toUpper :
    ∀ c ∈ hexDigits, ((Char.toUpper c).isUpper || (Char.toUpper c).isDigit) = true := by
  decide

theorem allocCode_mem {st : Store} {draws : List String} {c : String}
    (h : allocCode st draws = some c) : ∃ u ∈ draws, c = generateSessionCode u := by
  induction draws with
  | nil => simp [allocCode] at h
  | cons x xs ih =>
    simp only [allocCode] at h
    split at h
    · obtain ⟨u, hu, hc⟩ := ih h
      exact ⟨u, List.mem_cons_of_mem _ hu, hc⟩
    · cases h
      exact ⟨x, List.mem_cons_self _ _, rfl⟩

theorem canonical_code {u : String} (h : isCanonicalUuid u = true) :
    (generateSessionCode u).length = 8 ∧
    ∀ c ∈ (generateSessionCode u).data, (c.isUpper || c.isDigit) = true := by
  simp only [isCanonicalUuid, Bool.and_eq_true] at h
  have h8 := h.1.1.1.1.1.1.1.1
  simp only [hexGroup, Bool.and_eq_true, beq_iff_eq, List.all_eq_true] at h8
  constructor
  · show ((u.data.take 8).map Char.toUpper).length = 8
    rw [List.length_map]
    exact h8.1
  · intro c hc
    have hc' : c ∈ (u.data.take 8).map Char.toUpper := hc
    obtain ⟨x, hx, rfl⟩ := List.mem_map.mp hc'
    have := h8.2 x hx
    exact hex_toUpper x (by simpa using this)

/-- C17: for every UUID in canonical form `generateSessionCode` returns a
string of exactly 8 characters, each an upper-case letter or a digit. A newly
created session (answer 201) has as code `generateSessionCode` of one of the
UUID draws, and its invite link, in the answer and in the stored document, is
the front-end base (`FRONTEND_URL`, or `http://localhost:3000` when unset)
followed by `/join/` and that code. -/
theorem code_format_and_invite_link :
    (∀ u : String, isCanonicalUuid u = true →
      (generateSessionCode u).length = 8 ∧
      ∀ c ∈ (generateSessionCode u).data, (c.isUpper || c.isDigit) = true) ∧
    (∀ (st : Store) (name userId : Option String) (env : CreateEnv)
      (sid c link role owner nm : String) (t : Nat) (st1 : Store),
      create st name userId env =
        some (⟨201, Body.created sid c link role owner nm t false⟩, st1) →
      link = (truthy env.frontendUrl).getD "http://localhost:3000" ++ "/join/" ++ c ∧
      (∃ u ∈ env.codeDraws, c = generateSessionCode u) ∧
      (∃ rec, st1 = st ++ [rec] ∧ rec.sessionCode = c ∧ rec.inviteLink = link) ∧
      ((∀ u ∈ env.codeDraws, isCanonicalUuid u = true) →
        c.length = 8 ∧ ∀ x ∈ c.data, (x.isUpper || x.isDigit) = true)) := by
  refine ⟨fun u h => canonical_code h, ?_⟩
  intro st name userId env sid c link role owner nm t st1 h
  obtain ⟨halloc, hlink, rec, hst, hc, hl, -⟩ := create_created_code h
  obtain ⟨u, hu, hcu⟩ := allocCode_mem halloc
  refine ⟨hlink, ⟨u, hu, hcu⟩, ⟨rec, hst, hc, hl⟩, ?_⟩
  intro hall
  rw [hcu]
  exact canonical_code (hall u hu)

/-- C17 at concrete inputs: a UUID in lower case, and the creation of Retro
with the front-end base unset. -/
theorem code_format_and_invite_link_witness :
    (isCanonicalUuid "3f2a9c1e-7b4d-4e2a-9c1e-5d6f7a8b9c0d" = true ∧
      generateSessionCode "3f2a9c1e-7b4d-4e2a-9c1e-5d6f7a8b9c0d" = "3F2A9C1E" ∧
      create [] (some "Retro") (some "alice") retroEnv =
        some (⟨201, Body.created "s-1" "3F2A9C1E" "http://localhost:3000/join/3F2A9C1E"
          "owner" "alice" "Retro" 1000 false⟩, [retroSession])) ∧
    (generateSessionCode "3f2a9c1e-7b4d-4e2a-9c1e-5d6f7a8b9c0d").length = 8 ∧
    "http://localhost:3000/join/3F2A9C1E" =
      (truthy retroEnv.frontendUrl).getD "http://localhost:3000" ++ "/join/" ++ "3F2A9C1E" :=
  ⟨by decide,
    (code_format_and_invite_link.1 "3f2a9c1e-7b4d-4e2a-9c1e-5d6f7a8b9c0d" (by decide)).1,
    (code_format_and_invite_link.2 [] (some "Retro") (some "alice") retroEnv "s-1" "3F2A9C1E"
      "http://localhost:3000/join/3F2A9C1E" "owner" "alice" "Retro" 1000 [retroSession]
      (by decide)).1⟩

/-- C18: when the sequence of draws holds a candidate that no document uses,
the allocation loop returns after reading only the draws up to the first such
candidate `u`: every candidate before `u` is the code of a document, the code
of `u` is not, the result is the code of `u` whatever draws follow, and a
`create` that stores a new session (answer 201) with these draws gives it that
code. -/
theorem alloc_first_free (st : Store) (draws : List String)
    (h : ∃ u ∈ draws, ∀ d ∈ st, d.sessionCode ≠ generateSessionCode u) :
    ∃ pre u post, draws = pre ++ u :: post ∧
      (∀ v ∈ pre, ∃ d ∈ st, d.sessionCode = generateSessionCode v) ∧
      (∀ d ∈ st, d.sessionCode ≠ generateSessionCode u) ∧
      allocCode st draws = some (generateSessionCode u) ∧
      (∀ rest, allocCode st (pre ++ u :: rest) = some (generateSessionCode u)) ∧
      (∀ (name userId : Option String) (env : CreateEnv)
        (sid c link role owner nm : String) (t : Nat) (st1 : Store),
        env.codeDraws = draws →
        create st name userId env =
          some (⟨201, Body.created sid c link role owner nm t false⟩, st1) →
        c = generateSessionCode u ∧
        ∃ rec, st1 = st ++ [rec] ∧ rec.sessionCode = generateSessionCode u) := by
  obtain ⟨pre, u, post, hd, hpre, hfree, hall⟩ := allocCode_first st draws h
  have halloc : allocCode st draws = some (generateSessionCode u) := by
    rw [hd]; exact hall post
  refine ⟨pre, u, post, hd, hpre, hfree, halloc, hall, ?_⟩
  intro name userId env sid c link role owner nm t st1 henv hcreate
  obtain ⟨ha, -, rec, hst, hc, -, -⟩ := create_created_code hcreate
  rw [henv, halloc] at ha
  cases ha
  exact ⟨rfl, rec, hst, hc⟩

/-- C18 at a concrete input: Retro holds the code 3F2A9C1E and the first two
draws give that code; the third draw is allocated. -/
theorem alloc_first_free_witness :
    (∃ u ∈ collidingEnv.codeDraws,
      ∀ d ∈ (Server.init.run retroCreated).store, d.sessionCode ≠ generateSessionCode u) ∧
    allocCode (Server.init.run retroCreated).store collidingEnv.codeDraws = some "0A1B2C3D" ∧
    ∃ pre u post, collidingEnv.codeDraws = pre ++ u :: post ∧
      (∀ v ∈ pre, ∃ d ∈ (Server.init.run retroCreated).store,
        d.sessionCode = generateSessionCode v) ∧
      (∀ d ∈ (Server.init.run retroCreated).store, d.sessionCode ≠ generateSessionCode u) ∧
      allocCode (Server.init.run retroCreated).store collidingEnv.codeDraws =
        some (generateSessionCode u) ∧
      (∀ rest, allocCode (Server.init.run retroCreated).store (pre ++ u :: rest) =
        some (generateSessionCode u)) ∧
      (∀ (name userId : Option String) (env : CreateEnv)
        (sid c link role owner nm : String) (t : Nat) (st1 : Store),
        env.codeDraws = collidingEnv.codeDraws →
        create (Server.init.run retroCreated).store name userId env =
          some (⟨201, Body.created sid c link role owner nm t false⟩, st1) →
        c = generateSessionCode u ∧
        ∃ rec, st1 = (Server.init.run retroCreated).store ++ [rec] ∧
          rec.sessionCode = generateSessionCode u) :=
  ⟨⟨"0a1b2c3d-7b4d-4e2a-9c1e-5d6f7a8b9c0d", by decide, by decide⟩, by decide,
    alloc_first_free (Server.init.run retroCreated).store collidingEnv.codeDraws
      ⟨"0a1b2c3d-7b4d-4e2a-9c1e-5d6f7a8b9c0d", by decide, by decide⟩⟩

/-! ## Real-time join -/

theorem mem_mapSet_self {β : Type} (k : String) (v : β) (m : JsMap β) :
    (k, v) ∈ mapSet k v m := by
  induction m with
  | nil => simp [mapSet]
  | cons a rest ih =>
    obtain ⟨k1, v1⟩ := a
    by_cases hk : k1 = k
    · simp [mapSet, hk]
    · simp [mapSet, hk, ih]

theorem joinable_iff {st : Store} (hinv : StoreInv st) (sessionId userName : Option String)
    (now : Nat) :
    joinable st sessionId userName now ↔
      ∃ sid name i r, truthy sessionId = some sid ∧ truthy userName = some name ∧
        findOne (fun d => d.sessionId == sid && d.isActive) st = some (i, r) ∧
        r.isExpired now = false := by
  constructor
  · rintro ⟨sid, name, d, h1, h2, hd, hds, hact, hexp⟩
    obtain ⟨i, r, hf⟩ := findOne_isSome_of_mem
      (p := fun d => d.sessionId == sid && d.isActive) hd (by simp [hds, hact])
    have hfs := findOne_some hf
    simp only [Bool.and_eq_true, beq_iff_eq] at hfs
    obtain ⟨j, hj⟩ := List.mem_iff_getElem?.mp hd
    have hij : i = j := nodup_map_index hinv.1 hfs.1 hj (hfs.2.1.trans hds.symm)
    subst hij
    have hrd : r = d := by
      have := hfs.1.symm.trans hj
      exact Option.some.inj this
    subst hrd
    refine ⟨sid, name, i, r, h1, h2, hf, ?_⟩
    simp only [Session.isExpired, hact, Bool.not_true, Bool.or_false, decide_eq_false_iff_not]
    exact hexp
  · rintro ⟨sid, name, i, r, h1, h2, hf, hexp⟩
    have hfs := findOne_some hf
    simp only [Bool.and_eq_true, beq_iff_eq] at hfs
    refine ⟨sid, name, r, h1, h2, List.getElem?_mem hfs.1, hfs.2.1, hfs.2.2, ?_⟩
    simp only [Session.isExpired, Bool.or_eq_false_iff, decide_eq_false_iff_not] at hexp
    exact hexp.1

/-- C19: `join_session` from a connected socket `c` in a reachable state.
It sends `join_success` to `c` exactly when the join is `joinable`. In that
case `c` is registered under the session id with the given name and the time
of the join, the roster of `join_success` is the list of the connections then
registered for the session, it contains `c`, and the `user_joined` sent to
the other sockets of the room carries the same roster and its length as
count. Otherwise the only event is one `join_error` to `c`, and the store, the
registry and the sockets are unchanged. -/
theorem join_session_outcome (es : List Event) (c : String)
    (sessionId userName : Option String) (now : Nat) (a : Socket)
    (hc : findSocket (Server.init.run es).sockets c = some a) :
    ((∃ m ∈ (join_session (Server.init.run es) c sessionId userName now).2,
        m.recipient = c ∧ isJoinSuccess m.event = true) ↔
      joinable (Server.init.run es).store sessionId userName now) ∧
    (joinable (Server.init.run es).store sessionId userName now →
      ∃ sid name d, truthy sessionId = some sid ∧ truthy userName = some name ∧
        d ∈ (Server.init.run es).store ∧ d.sessionId = sid ∧
        mapGet c ((mapGet sid
          (join_session (Server.init.run es) c sessionId userName now).1.activeSessions).getD [])
          = some ⟨name, now⟩ ∧
        (⟨c, name, now⟩ : RosterEntry) ∈ roster ((mapGet sid
          (join_session (Server.init.run es) c sessionId userName now).1.activeSessions).getD []) ∧
        (join_session (Server.init.run es) c sessionId userName now).2 =
          ⟨c, OutEvent.join_success sid name d.sessionName d.createdBy d.boardData
            (roster ((mapGet sid (join_session (Server.init.run es) c sessionId userName
              now).1.activeSessions).getD []))⟩ ::
          socketTo (join_session (Server.init.run es) c sessionId userName now).1.sockets c
            (some sid)
            (OutEvent.user_joined name c
              (roster ((mapGet sid (join_session (Server.init.run es) c sessionId userName
                now).1.activeSessions).getD [])).length
              (roster ((mapGet sid (join_session (Server.init.run es) c sessionId userName
                now).1.activeSessions).getD [])))) ∧
    (¬ joinable (Server.init.run es).store sessionId userName now →
      ∃ msg, join_session (Server.init.run es) c sessionId userName now =
        (Server.init.run es, [⟨c, OutEvent.join_error msg⟩])) := by
  have hinv := (ServerInv_run es ServerInv_init).1
  generalize Server.init.run es = σ at hc hinv ⊢
  have hiff := joinable_iff hinv sessionId userName now
  rcases join_session_cases σ c sessionId userName now with ⟨h0, _⟩ | ⟨msg, h, hno⟩ |
    ⟨sid, name, i, r, a1, h1, h2, h3, h4, h5, h⟩
  · rw [hc] at h0; cases h0
  · have hnj : ¬ joinable σ.store sessionId userName now := fun hj => hno (hiff.mp hj)
    refine ⟨?_, fun hj => absurd hj hnj, fun _ => ⟨msg, h⟩⟩
    constructor
    · rintro ⟨m, hm, -, hs⟩
      rw [h] at hm
      simp only [List.mem_singleton] at hm
      subst hm
      cases hs
    · intro hj
      exact absurd hj hnj
  · have hj : joinable σ.store sessionId userName now :=
      hiff.mpr ⟨sid, name, i, r, h1, h2, h4, h5⟩
    have hfs := findOne_some h4
    simp only [Bool.and_eq_true, beq_iff_eq] at hfs
    refine ⟨?_, fun _ => ?_, fun hn => absurd hj hn⟩
    · constructor
      · intro _; exact hj
      · intro _
        rw [h]
        exact ⟨_, List.mem_cons_self _ _, rfl, rfl⟩
    · refine ⟨sid, name, r, h1, h2, List.getElem?_mem hfs.1, hfs.2.1, ?_, ?_, ?_⟩
      · rw [h]
        simp only [mapGet_mapSet_self, Option.getD_some]
      · rw [h]
        simp only [mapGet_mapSet_self, Option.getD_some, roster]
        exact List.mem_map.mpr ⟨(c, ⟨name, now⟩), mem_mapSet_self _ _ _, rfl⟩
      · rw [h]
        simp only [mapGet_mapSet_self, Option.getD_some, roster, List.length_map]

/-- C19 at concrete inputs: connection A joins Retro as bob at time 2000 and
is told the roster; a join without a user name is answered by `join_error`. -/
theorem join_session_outcome_witness :
    findSocket (Server.init.run retroWaiting).sockets "A" = some ⟨"A", none, []⟩ ∧
    join_session (Server.init.run retroWaiting) "A" (some "s-1") (some "bob") 2000 =
      ({ store := [{ retroSession with participants := ["alice", "bob"] }],
         activeSessions := [("s-1", [("A", ⟨"bob", 2000⟩)])],
         sockets := [⟨"A", some ⟨"s-1", "bob"⟩, ["s-1"]⟩] },
        [⟨"A", OutEvent.join_success "s-1" "bob" "Retro" "alice" emptyBoard
          [⟨"A", "bob", 2000⟩]⟩]) ∧
    ((∃ m ∈ (join_session (Server.init.run retroWaiting) "A" (some "s-1") (some "bob") 2000).2,
        m.recipient = "A" ∧ isJoinSuccess m.event = true) ↔
      joinable (Server.init.run retroWaiting).store (some "s-1") (some "bob") 2000) ∧
    (¬ joinable (Server.init.run retroWaiting).store (some "s-1") none 2000 →
      ∃ msg, join_session (Server.init.run retroWaiting) "A" (some "s-1") none 2000 =
        (Server.init.run retroWaiting, [⟨"A", OutEvent.join_error msg⟩])) :=
  ⟨by decide, by decide,
    (join_session_outcome retroWaiting "A" (some "s-1") (some "bob") 2000 ⟨"A", none, []⟩
      (by decide)).1,
    (join_session_outcome retroWaiting "A" (some "s-1") none 2000 ⟨"A", none, []⟩
      (by decide)).2.2⟩

/-! ## Registry after disconnect -/

theorem mapSet_mapSet {β : Type} (k : String) (v w : β) (m : JsMap β) :
    mapSet k v (mapSet k w m) = mapSet k v m := by
  induction m with
  | nil => simp [mapSet]
  | cons a rest ih =>
    obtain ⟨k1, v1⟩ := a
    by_cases hk : k1 = k
    · simp [mapSet, hk]
    · simp [mapSet, hk, ih]

theorem mapSet_ne_nil {β : Type} (k : String) (v : β) (m : JsMap β) : mapSet k v m ≠ [] := by
  cases m with
  | nil => simp [mapSet]
  | cons a rest =>
    obtain ⟨k1, v1⟩ := a
    unfold mapSet
    split <;> simp

theorem RegistryInv_step {σ : Server} (hinv : RegistryInv σ) (e : Event) :
    RegistryInv (σ.step e) := by
  cases e with
  | create n u env =>
    simp only [Server.step]
    split <;> exact hinv
  | joinByCode code u now g => exact hinv
  | updateBoard sid b => exact hinv
  | deleteSession sid u => exact hinv
  | deactivate sid => exact hinv
  | connect c =>
    simp only [Server.step, connect]
    split <;> exact hinv
  | join_session c sid name now =>
    simp only [Server.step]
    rcases join_session_cases σ c sid name now with ⟨_, h⟩ | ⟨msg, h, _⟩ |
      ⟨sid1, name1, i, r, a, h1, h2, h3, h4, h5, h⟩
    · rw [h]; exact hinv
    · rw [h]; exact hinv
    · rw [h]
      intro x hx
      have hx' : x ∈ mapSet sid1 (mapSet c ⟨name1, now⟩
          ((mapGet sid1 (if mapHas sid1 σ.activeSessions then σ.activeSessions
            else mapSet sid1 [] σ.activeSessions)).getD [])) σ.activeSessions := by
        by_cases hh : mapHas sid1 σ.activeSessions = true
        · simpa only [hh, if_true] using hx
        · simp only [hh, Bool.false_eq_true, if_false, mapSet_mapSet] at hx
          simpa only [hh, Bool.false_eq_true, if_false] using hx
      rcases mem_mapSet hx' with rfl | hx'
      · exact mapSet_ne_nil _ _ _
      · exact hinv x hx'
  | draw_element c sid e p =>
    simp only [Server.step, draw_element, relayOthers_fst]; exact hinv
  | update_element c sid e p =>
    simp only [Server.step, update_element, relayOthers_fst]; exact hinv
  | delete_element c sid e p =>
    simp only [Server.step, delete_element, relayOthers_fst]; exact hinv
  | clear_board c sid p =>
    simp only [Server.step, clear_board, relayOthers_fst]; exact hinv
  | chat_message c sid m u now =>
    simp only [Server.step, chat_message_fst]; exact hinv
  | save_board c sid b =>
    intro x hx
    simp only [Server.step, (save_board_rest σ c sid b).1] at hx
    exact hinv x hx
  | disconnect c =>
    simp only [Server.step]
    rcases disconnect_effect σ c with ⟨hreg, _⟩ | ⟨s0, m, hm, hcm, hcase⟩
    · intro x hx
      rw [hreg] at hx
      exact hinv x hx
    · rcases hcase with ⟨_, hreg, _⟩ | ⟨hrem, hreg, _⟩
      · intro x hx
        rw [hreg] at hx
        exact hinv x (mem_mapDelete hx)
      · intro x hx
        rw [hreg] at hx
        rcases mem_mapSet hx with rfl | hx
        · exact hrem
        · exact hinv x hx

/-- In every reachable state no session key of the registry has an empty
connection map. -/
theorem registry_no_empty_key (es : List Event) : RegistryInv (Server.init.run es) := by
  have : ∀ (es : List Event) (σ : Server), RegistryInv σ → RegistryInv (σ.run es) := by
    intro es
    induction es with
    | nil => intro σ h; exact h
    | cons e es ih =>
      intro σ h
      simp only [Server.run, List.foldl_cons]
      exact ih _ (RegistryInv_step h e)
  apply this
  intro x hx
  simp [Server.init] at hx

theorem not_mem_keys_of_not_mapHas {β : Type} {k : String} {m : JsMap β}
    (h : mapHas k m = false) : k ∉ m.map (fun e => e.1) := by
  intro hk
  obtain ⟨e, he, hek⟩ := List.mem_map.mp hk
  have : mapHas k m = true := mapHas_iff.mpr ⟨e, he, hek⟩
  rw [h] at this
  cases this

/-- In every reachable state, the disconnect of a socket removes its entry
under the session named by its `userData`. -/
theorem disconnect_removes_current (es : List Event) (c : String) (a : Socket) (u : UserData)
    (ha : findSocket (Server.init.run es).sockets c = some a) (hu : a.userData = some u) :
    c ∉ members (disconnect (Server.init.run es) c).1 u.sessionId := by
  have hsock := SocketInv_run es
  generalize Server.init.run es = σ at ha hsock ⊢
  have hne : u.sessionId ≠ "" := (hsock a (findSocket_some ha).1 u hu).2.1
  cases hh : mapHas u.sessionId σ.activeSessions with
  | false =>
    have hreg : (disconnect σ c).1.activeSessions = σ.activeSessions := by
      simp [disconnect, ha, hu, hh]
    have hnone : mapGet u.sessionId σ.activeSessions = none := by
      cases hg : mapGet u.sessionId σ.activeSessions with
      | none => rfl
      | some v => rw [mapHas_of_mapGet hg] at hh; cases hh
    simp [members, hreg, hnone]
  | true =>
    obtain ⟨m, hm⟩ := mapGet_of_mapHas hh
    cases hc : mapHas c m with
    | false =>
      have hreg : (disconnect σ c).1.activeSessions = σ.activeSessions := by
        simp [disconnect, ha, hu, hh, hne, hm, hc]
      simp only [members, hreg, hm, Option.getD_some]
      exact not_mem_keys_of_not_mapHas hc
    | true =>
      rcases disconnect_removal ha hu hne hm hc with ⟨_, hreg, _⟩ | ⟨_, hreg, _⟩
      · simp [members, hreg, mapGet_mapDelete_self]
      · simp only [members, hreg, mapGet_mapSet_self, Option.getD_some]
        apply not_mem_keys_of_not_mapHas
        simp [mapHas, mapDelete]

/-- C21 fails when a connection joins a second session: A joins Retro (s-1),
then Standup (s-2), and disconnects. The handler only looks at the session in
`socket.userData`, which is s-2: that key is removed and Standup is
deactivated, but the entry of A under s-1 stays in `activeSessions` after A is
gone, and Retro stays active with no socket connected. -/
theorem stale_entry_after_second_join :
    (Server.init.run movedOn).sockets = [] ∧
    (Server.init.run movedOn).activeSessions = [("s-1", [("A", ⟨"ann", 2000⟩)])] ∧
    "A" ∈ members (Server.init.run movedOn) "s-1" ∧
    (Server.init.run movedOn).store.map (fun d => (d.sessionId, d.isActive)) =
      [("s-1", true), ("s-2", false)] := by
  decide

/-! ## Store failures inside `POST /create` -/

theorem createInterleaved_same (st : Store) (sessionName userId : Option String)
    (env : CreateEnv) : createInterleaved st st sessionName userId env =
      create st sessionName userId env := rfl

/-- C22, as stated, fails: two requests create Retro for alice at the same
time. The second one looks up the name before the first one has saved, so it
finds nothing, and its insert is rejected by the unique index on the active
`(sessionName, createdBy)`. Its answer is 409 with a message only, while the
answer for an active duplicate that the lookup finds names the sessionId and
the sessionCode of the existing session. -/
theorem losing_racer_names_no_code :
    createInterleaved Server.init.store (Server.init.run retroCreated).store
        (some "Retro") (some "alice") laterEnv =
      some (⟨409, Body.error "A session with this name already exists"⟩,
        (Server.init.run retroCreated).store) ∧
    create (Server.init.run retroCreated).store (some "Retro") (some "alice") laterEnv =
      some (⟨409, Body.conflict "You already have an active session with this name"
        "s-1" "3F2A9C1E"⟩, (Server.init.run retroCreated).store) ∧
    (createInterleaved Server.init.store (Server.init.run retroCreated).store
        (some "Retro") (some "alice") laterEnv).map (fun r => r.1) ≠
      (create (Server.init.run retroCreated).store (some "Retro") (some "alice")
        laterEnv).map (fun r => r.1) := by
  decide

/-- C22, amended: when the `save()` inside `create` is rejected, be it the
save of the reactivated document or the insert of the new one, the store is
left as it is and the answer depends on the error only: a duplicate-key error
gives 409 with the message that a session with this name already exists (no
sessionId and no sessionCode, unlike the answer for an active duplicate found
by the lookup), and any other error gives 500 with the generic message. -/
theorem create_store_failure (stRead stWrite : Store) (name : String)
    (userId : Option String) (env : CreateEnv) (hname : (trim name).length ≠ 0) :
    (∀ (i : Nat) (existing : Session) (e : StoreError),
      findOne (fun d => d.sessionName == trim name &&
          d.createdBy == (truthy userId).getD (createGuestUser env.guestDraw)) stRead =
        some (i, existing) →
      existing.isActive = false →
      saveDoc stWrite i existing
        { existing with
          isActive := true
          expiresAt := env.now + sevenDays
          participants := [(truthy userId).getD (createGuestUser env.guestDraw)]
          boardData := emptyBoard } = Except.error e →
      createInterleaved stRead stWrite (some name) userId env =
        some (createFailure e, stWrite)) ∧
    (∀ (c : String) (e : StoreError),
      findOne (fun d => d.sessionName == trim name &&
          d.createdBy == (truthy userId).getD (createGuestUser env.guestDraw)) stRead = none →
      allocCode stRead env.codeDraws = some c →
      insertDoc stWrite
        { sessionId := env.idDraw
          sessionCode := c
          sessionName := trim name
          createdBy := (truthy userId).getD (createGuestUser env.guestDraw)
          createdAt := env.now
          participants := [(truthy userId).getD (createGuestUser env.guestDraw)]
          boardData := emptyBoard
          inviteLink := (truthy env.frontendUrl).getD "http://localhost:3000" ++ "/join/" ++ c
          isActive := true
          expiresAt := env.now + sevenDays } = Except.error e →
      createInterleaved stRead stWrite (some name) userId env =
        some (createFailure e, stWrite)) ∧
    createFailure StoreError.duplicateKey =
      ⟨409, Body.error "A session with this name already exists"⟩ ∧
    createFailure StoreError.validation = ⟨500, Body.error "Failed to create session"⟩ := by
  refine ⟨?_, ?_, rfl, rfl⟩
  · intro i existing e hf hact hsave
    simp only [createInterleaved, truthy_of_length hname, hname, if_false, hf, hact,
      Bool.false_eq_true, hsave]
    cases e <;> rfl
  · intro c e hf ha hins
    simp only [createInterleaved, truthy_of_length hname, hname, if_false, hf, ha, hins]
    cases e <;> rfl

/-- C22 amended, at a concrete input: the losing request of two that create
Retro for alice at the same time. -/
theorem create_store_failure_witness :
    ((trim "Retro").length ≠ 0 ∧
      findOne (fun d => d.sessionName == trim "Retro" &&
          d.createdBy == (truthy (some "alice")).getD (createGuestUser laterEnv.guestDraw))
        Server.init.store = none ∧
      allocCode Server.init.store laterEnv.codeDraws = some "0A1B2C3D") ∧
    createInterleaved Server.init.store (Server.init.run retroCreated).store
        (some "Retro") (some "alice") laterEnv =
      some (createFailure StoreError.duplicateKey, (Server.init.run retroCreated).store) :=
  ⟨by decide,
    (create_store_failure Server.init.store (Server.init.run retroCreated).store "Retro"
      (some "alice") laterEnv (by decide)).2.1 "0A1B2C3D" StoreError.duplicateKey
      (by decide) (by decide) rfl⟩

end Whiteboard
